import Mathlib

/-!
Mission4.js: wizard controller

A shallow embedding of `src/Mission4.js`.  The script keeps its session in
page-level variables and talks to three collaborators: the DOM (page sections,
form fields, display elements), the Leaflet map widget and the Nominatim
geocoder.  Here the variables, the part of the DOM the script reads or writes,
the Leaflet objects it holds and a log of the calls it makes to the outside
(alerts, console errors, fetches, display requests, timers) are the fields of
one record, and every function of the script is a function on that record.

Modelling choices.

* A text that reaches the script from outside (a form field, a reply of the
  geocoder) or that may carry such a text (a popup label, the query of a
  request) is a `Text`: the list of its UTF-16 code units, so that a surrogate
  without its partner is a text like any other.  The messages the script
  itself spells out (alerts, console errors, display values) and the reference
  code are `String`; `toUtf16` takes a `String` to its code units.
* JavaScript numbers that come out of `parseFloat` are kept abstract: the type
  `Num` and the three conversions the script applies to it are parameters
  (`Env`).  The two integers the script computes with (`currentPage`, page
  indices) are `Int`.
* A value of `Math.random()` is a double in `[0, 1)`, kept as a `Draw`: a
  numerator and a binary exponent.  Its product with `chars.length` is the
  IEEE 754 product, the exact product rounded to 53 significant bits with
  ties to even (`roundProduct`).
* A Leaflet object is the record of what the script did to it, with an
  identity: the value of the construction counter when it was made.
* `setTimeout` appends to a list of pending callbacks, and any pending
  callback may be the next to run.  The `await` of `findAddress` cuts it in
  two: `findAddress` up to the call of `fetch`, `geocodeSettled` from the
  reply on; any open request may be the next to settle.
* A DOM element the script looks up by id is an `Option`: `none` when the page
  has no such element, which the script guards against at every use.
-/

namespace Mission4

/-- A JavaScript string: its UTF-16 code units. -/
abbrev Text : Type := List Nat

/-- The code units of one character: itself in the basic plane, a surrogate
pair above it. -/
def charUnits (c : Char) : List Nat :=
  if c.toNat < 0x10000 then [c.toNat]
  else [0xD800 + (c.toNat - 0x10000) / 0x400, 0xDC00 + (c.toNat - 0x10000) % 0x400]

/-- The code units of a list of characters. -/
def unitsOf : List Char → Text
  | [] => []
  | c :: cs => charUnits c ++ unitsOf cs

/-- The JavaScript string a string literal of the script denotes. -/
def toUtf16 (t : String) : Text := unitsOf t.data

/-- A double that is at least 0 and less than 1, as `mant / 2 ^ exp`. -/
structure Draw where
  mant : Nat
  exp : Nat
deriving DecidableEq, Repr

/-- The number a draw stands for. -/
def Draw.value (d : Draw) : ℚ := (d.mant : ℚ) / 2 ^ d.exp

/-- The pair is a double (at most 53 significant bits, no bit below
`2 ^ -1074`) and its value is less than 1: what `Math.random()` may return. -/
def Draw.Valid (d : Draw) : Prop := d.mant < 2 ^ 53 ∧ d.exp ≤ 1074 ∧ d.mant < 2 ^ d.exp

/-- What the hosting page provides and the script does not define. -/
structure Env (Num : Type) where
  /-- Truth of `typeof L !== 'undefined'`. -/
  leaflet : Bool
  /-- The builtin `parseFloat` on strings. -/
  parseFloat : Text → Num
  /-- Number to string conversion used by template literals. -/
  numToString : Num → Text
  /-- The method call `x.toFixed(5)`. -/
  toFixed5 : Num → Text
  /-- The value returned by the k-th call of `Math.random()`. -/
  random : Nat → Draw

/-- The object returned by `L.map('map').setView(...)`, with the calls made on it. -/
structure MapView (Num : Type) where
  id : Nat
  center : Num × Num
  zoom : Nat
  tileLayers : Nat
  clickHandlers : Nat
  invalidations : Nat
deriving DecidableEq, Repr

/-- The object returned by `L.marker(...)`, with its popup. -/
structure Marker (Num : Type) where
  id : Nat
  pos : Num × Num
  popup : Text
  popupOpen : Bool
deriving DecidableEq, Repr

/-- The two callbacks `showPage` hands to `setTimeout`: the 60 ms one that
creates the map and the 100 ms one that re-measures it. -/
inductive Timer where
  | create
  | refresh
deriving DecidableEq, Repr

/-- Session state: the variables of the script, the DOM it touches, and the
log of its calls to the outside. -/
structure State (Num : Type) where
  /-- The variable `currentPage`. -/
  currentPage : Int
  /-- For each element of `pages`, whether its class list holds `active`. -/
  active : List Bool
  sharedReport : Bool
  selectedIssue : Text
  map : Option (MapView Num)
  marker : Option (Marker Num)
  mapInitialized : Bool
  /-- Callbacks given to `setTimeout` that have not run yet. -/
  timers : List Timer
  /-- Value of `#address-input`, `none` when the element is missing. -/
  addressInput : Option Text
  /-- Value of `#name`. -/
  nameInput : Option Text
  /-- Value of `#email`. -/
  emailInput : Option Text
  /-- Property `innerText` of `#reference-number`. -/
  referenceNumber : Option String
  /-- Property `style.display` of `#reference-container`. -/
  referenceContainer : Option String
  /-- Property `style.display` of `#contact-form`. -/
  contactForm : Option String
  /-- Arguments of the calls of `showPage`, oldest first. -/
  shown : List Int
  /-- Messages passed to `alert`, oldest first. -/
  alerts : List String
  /-- Messages passed to `console.error`, oldest first. -/
  errors : List String
  /-- Queries passed to `fetch`, oldest first. -/
  fetches : List Text
  /-- Queries whose `fetch` has not settled yet. -/
  pending : List Text
  /-- Number of calls of `L.map` so far. -/
  mapsBuilt : Nat
  /-- Number of calls of `L.marker` so far. -/
  markersBuilt : Nat
  /-- Number of calls of `Math.random` so far. -/
  randomCalls : Nat
deriving DecidableEq, Repr

variable {Num : Type}

/-- The constant `LOCATION_PAGE_INDEX`. -/
def LOCATION_PAGE_INDEX : Int := 3

/-- The expression `pages.length`. -/
def pagesLength (s : State Num) : Int := (s.active.length : Int)

/-- The body of `if (index === LOCATION_PAGE_INDEX) { ... }` in `showPage`:
the first time a 60 ms timer that creates the map, afterwards a 100 ms timer
that re-measures it. -/
def scheduleMap (s : State Num) : State Num :=
  if !s.mapInitialized then
    { s with timers := s.timers ++ [Timer.create] }
  else
    { s with timers := s.timers ++ [Timer.refresh] }

/-- The flags `pages.forEach` leaves: page `i` is active exactly when
`i === index`. -/
def activeFlags (n : Nat) (index : Int) : List Bool :=
  (List.range n).map (fun (i : Nat) => decide ((i : Int) = index))

/-- The function `showPage(index)`: page `i` is active exactly when
`i === index`; showing the location page schedules the creation of the map
(first time) or its re-measurement. -/
def showPage (s : State Num) (index : Int) : State Num :=
  let s1 : State Num :=
    { s with
      active := activeFlags s.active.length index
      shown := s.shown ++ [index] }
  if index = LOCATION_PAGE_INDEX then scheduleMap s1 else s1

/-- The function `nextPage()`. -/
def nextPage (s : State Num) : State Num :=
  if s.currentPage < pagesLength s - 1 then
    showPage { s with currentPage := s.currentPage + 1 } (s.currentPage + 1)
  else s

/-- The function `prevPage()`. -/
def prevPage (s : State Num) : State Num :=
  if s.currentPage > 0 then
    showPage { s with currentPage := s.currentPage - 1 } (s.currentPage - 1)
  else s

/-- The function `selectIssue(issue)`. -/
def selectIssue (s : State Num) (issue : Text) : State Num :=
  nextPage { s with selectedIssue := issue }

/-- The call `map.invalidateSize()` on the map held in `map`, if any. -/
def invalidateSize (s : State Num) : State Num :=
  match s.map with
  | some m => { s with map := some { m with invalidations := m.invalidations + 1 } }
  | none => s

/-- The function `initMap()`.  The number literals `-41.2865` and `174.7762`
are read with `parseFloat`. -/
def initMap (env : Env Num) (s : State Num) : State Num :=
  if !env.leaflet then
    { s with errors := s.errors ++
        ["Leaflet library not loaded. Make sure <script src=\"https://unpkg.com/leaflet/dist/leaflet.js\"></script> is included."] }
  else if s.map.isSome then invalidateSize s
  else
    let c : Num × Num :=
      (env.parseFloat (toUtf16 "-41.2865"), env.parseFloat (toUtf16 "174.7762"))
    { s with
      map := some
        { id := s.mapsBuilt, center := c, zoom := 13, tileLayers := 1,
          clickHandlers := 1, invalidations := 0 }
      marker := some
        { id := s.markersBuilt, pos := c, popup := toUtf16 "Default Location",
          popupOpen := true }
      mapsBuilt := s.mapsBuilt + 1
      markersBuilt := s.markersBuilt + 1 }

/-- The statements `if (marker) marker.setLatLng(p).bindPopup(label).openPopup();
else marker = L.marker(p).addTo(map).bindPopup(label).openPopup();`, which the
script repeats at each of its three placements. -/
def placeMarker (s : State Num) (p : Num × Num) (label : Text) : State Num :=
  match s.marker with
  | some mk => { s with marker := some { mk with pos := p, popup := label, popupOpen := true } }
  | none =>
    { s with
      marker := some { id := s.markersBuilt, pos := p, popup := label, popupOpen := true }
      markersBuilt := s.markersBuilt + 1 }

/-- The click callback registered by `initMap`, run for a click at
`(lat, lng)`.  It runs only when a map with the callback exists. -/
def mapClick (env : Env Num) (s : State Num) (lat lng : Num) : State Num :=
  match s.map with
  | none => s
  | some m =>
    if m.clickHandlers = 0 then s
    else
      let s1 := placeMarker s (lat, lng)
        (toUtf16 "Selected: " ++ env.toFixed5 lat ++ toUtf16 ", " ++ env.toFixed5 lng)
      { s1 with
        addressInput := s1.addressInput.map
          (fun _ => env.toFixed5 lat ++ toUtf16 ", " ++ env.toFixed5 lng) }

/-- One of the callbacks scheduled by `showPage` runs: the one at position `i`
of the pending list. -/
def fireTimer (env : Env Num) (s : State Num) (i : Nat) : State Num :=
  match s.timers[i]? with
  | none => s
  | some Timer.create =>
    { initMap env { s with timers := s.timers.eraseIdx i } with mapInitialized := true }
  | some Timer.refresh =>
    invalidateSize { s with timers := s.timers.eraseIdx i }

/-! ## Text: `trim`, the coordinate pattern and `encodeURIComponent` -/

/-- The class `\s` of JavaScript regular expressions, which is also the set
of code units `String.prototype.trim` strips: white space and line
terminators. -/
def isSpace (c : Nat) : Bool :=
  c = 0x09 || c = 0x0A || c = 0x0B || c = 0x0C ||
  c = 0x0D || c = 0x20 || c = 0xA0 || c = 0x1680 ||
  (0x2000 ≤ c && c ≤ 0x200A) || c = 0x2028 ||
  c = 0x2029 || c = 0x202F || c = 0x205F ||
  c = 0x3000 || c = 0xFEFF

/-- The class `\d`: the ten ASCII digits. -/
def isDigit (c : Nat) : Bool := 0x30 ≤ c && c ≤ 0x39

/-- The method `trim()`. -/
def jsTrim (t : Text) : Text :=
  ((t.dropWhile isSpace).reverse.dropWhile isSpace).reverse

/-- The item `[+-]?` matched at the head of `cs`: the text it takes and the
text left.  `0x2B` is the plus sign, `0x2D` the minus sign. -/
def matchSign : Text → Text × Text
  | c :: r => if c = 0x2B ∨ c = 0x2D then ([c], r) else ([], c :: r)
  | [] => ([], [])

/-- The group `(\.\d+)?` matched at the head of `cs`: a dot (`0x2E`) with the
digits after it when there is at least one, nothing otherwise. -/
def matchFraction : Text → Text × Text
  | c :: r =>
    if c = 0x2E ∧ r.takeWhile isDigit ≠ [] then
      (c :: r.takeWhile isDigit, r.dropWhile isDigit)
    else ([], c :: r)
  | [] => ([], [])

/-- The group `([+-]?\d+(\.\d+)?)` matched at the head of `cs`: the text
captured by the group and the text left after it.  Each quantifier is greedy;
giving characters back never helps, because what follows a run of digits in
the pattern cannot start with a digit. -/
def matchNumber (cs : Text) : Option (Text × Text) :=
  let signed := matchSign cs
  let ds := signed.2.takeWhile isDigit
  if ds = [] then none
  else
    let frac := matchFraction (signed.2.dropWhile isDigit)
    some (signed.1 ++ ds ++ frac.1, frac.2)

/-- The call `address.match(/^\s*([+-]?\d+(\.\d+)?)\s*,\s*([+-]?\d+(\.\d+)?)\s*$/)`:
`none` for `null`, otherwise the groups 1 and 3.  `0x2C` is the comma. -/
def coordMatch (cs : Text) : Option (Text × Text) :=
  match matchNumber (cs.dropWhile isSpace) with
  | none => none
  | some (g1, r1) =>
    match r1.dropWhile isSpace with
    | c :: r2 =>
      if c = 0x2C then
        match matchNumber (r2.dropWhile isSpace) with
        | none => none
        | some (g3, r3) => if r3.dropWhile isSpace = [] then some (g1, g3) else none
      else none
    | [] => none

/-- The texts the group `[+-]?\d+(\.\d+)?` stands for: an optional sign, one
or more digits, and optionally a dot followed by one or more digits. -/
def IsNumberText (g : Text) : Prop :=
  ∃ sign ds frac : Text, g = sign ++ ds ++ frac ∧
    (sign = [] ∨ sign = [0x2B] ∨ sign = [0x2D]) ∧
    ds ≠ [] ∧ (∀ c ∈ ds, isDigit c = true) ∧
    (frac = [] ∨ ∃ fs : Text, frac = 0x2E :: fs ∧ fs ≠ [] ∧ ∀ c ∈ fs, isDigit c = true)

/-- The texts the whole pattern stands for, with the texts of its groups 1
and 3: white space, a number, white space, a comma, white space, a number,
white space. -/
def MatchesPair (cs g1 g3 : Text) : Prop :=
  ∃ w1 w2 w3 w4 : Text,
    cs = w1 ++ (g1 ++ (w2 ++ 0x2C :: (w3 ++ (g3 ++ w4)))) ∧
    (∀ c ∈ w1, isSpace c = true) ∧ (∀ c ∈ w2, isSpace c = true) ∧
    (∀ c ∈ w3, isSpace c = true) ∧ (∀ c ∈ w4, isSpace c = true) ∧
    IsNumberText g1 ∧ IsNumberText g3

/-- A leading surrogate. -/
def isHigh (u : Nat) : Bool := 0xD800 ≤ u && u ≤ 0xDBFF

/-- A trailing surrogate. -/
def isLow (u : Nat) : Bool := 0xDC00 ≤ u && u ≤ 0xDFFF

/-- Whether `encodeURIComponent(t)` returns a value: it throws `URIError`
exactly when `t` holds a surrogate that is not part of a pair. -/
def encodable : Text → Bool
  | [] => true
  | [u] => !isHigh u && !isLow u
  | u :: v :: rest =>
    if isHigh u then isLow v && encodable rest
    else !isLow u && encodable (v :: rest)

/-! ## Address resolution -/

/-- The call `map.setView(c, zoom)` on the map held in `map`, if any. -/
def setView (s : State Num) (c : Num × Num) (zoom : Nat) : State Num :=
  match s.map with
  | some m => { s with map := some { m with center := c, zoom := zoom } }
  | none => s

/-- The statement `if (!mapInitialized) showPage(LOCATION_PAGE_INDEX);`, which
the script comments with "ensure map is initialized first (show page)". -/
def ensureShown (s : State Num) : State Num :=
  if !s.mapInitialized then showPage s LOCATION_PAGE_INDEX else s

/-- The statements `if (!mapInitialized) showPage(LOCATION_PAGE_INDEX);
if (map) { map.setView([lat, lon], 16); ... }` shared by the two branches of
`findAddress`. -/
def locate (s : State Num) (c : Num × Num) (label : Text) : State Num :=
  let s1 := ensureShown s
  if s1.map.isSome then placeMarker (setView s1 c 16) c label else s1

/-- The `catch` block of `findAddress`: the error is logged and the generic
alert is shown. -/
def geocodingFailed (s : State Num) : State Num :=
  { s with
    errors := s.errors ++ ["Geocoding error"]
    alerts := s.alerts ++ ["Error finding address. See console for details."] }

/-- The function `findAddress()` up to its `await`: the empty check, the
coordinate branch, and in the `try` block the call of `encodeURIComponent`,
which may throw into the `catch` block, and then the call of `fetch`. -/
def findAddress (env : Env Num) (s : State Num) : State Num :=
  let address := jsTrim (s.addressInput.getD [])
  if address = [] then
    { s with alerts := s.alerts ++ ["Please enter an address or coordinates."] }
  else
    match coordMatch address with
    | some (g1, g3) =>
      let lat := env.parseFloat g1
      let lon := env.parseFloat g3
      locate s (lat, lon)
        (toUtf16 "Coordinates: " ++ env.numToString lat ++ toUtf16 ", " ++ env.numToString lon)
    | none =>
      if encodable address then
        { s with fetches := s.fetches ++ [address], pending := s.pending ++ [address] }
      else geocodingFailed s

/-- One element of the array Nominatim answers with. -/
structure Place where
  lat : Text
  lon : Text
  display_name : Option Text
deriving DecidableEq, Repr

/-- How `await fetch(url)` followed by `await res.json()` ends: an exception,
or a value, which is `null` or an array of places. -/
inductive Reply where
  | failure
  | data (results : Option (List Place))
deriving DecidableEq, Repr

/-- The function `findAddress()` after its `await`, for the pending query at
position `i` and the reply `r`. -/
def geocodeSettled (env : Env Num) (s : State Num) (i : Nat) (r : Reply) : State Num :=
  match s.pending[i]? with
  | none => s
  | some address =>
    let s0 : State Num := { s with pending := s.pending.eraseIdx i }
    match r with
    | Reply.failure => geocodingFailed s0
    | Reply.data none =>
      { s0 with alerts := s0.alerts ++ ["Address not found. Try a different query."] }
    | Reply.data (some []) =>
      { s0 with alerts := s0.alerts ++ ["Address not found. Try a different query."] }
    | Reply.data (some (p :: _)) =>
      let displayName :=
        match p.display_name with
        | some n => if n = [] then address else n
        | none => address
      locate s0 (env.parseFloat p.lat, env.parseFloat p.lon) displayName

/-! ## Report submission -/

/-- The string `chars` of `generateReference`. -/
def chars : String := "ABCDEFGHIJKLMNOPQRSTUVWXYZ0123456789"

/-- The method `charAt(i)`: the empty string outside the string. -/
def charAt (t : String) (i : Int) : String :=
  if i < 0 then ""
  else
    match t.data[i.toNat]? with
    | some c => String.singleton c
    | none => ""

/-- By how many bits `p` is longer than 53 bits; the first argument bounds
the number of halvings and `p` itself is always enough. -/
def excessBits : Nat → Nat → Nat
  | 0, _ => 0
  | f + 1, p => if p < 2 ^ 53 then 0 else excessBits f (p / 2) + 1

/-- The integer `p` rounded to 53 significant bits, to the nearest and on a
tie to the one with an even last bit: the rounding of IEEE 754 arithmetic. -/
def roundProduct (p : Nat) : Nat :=
  let d := excessBits p p
  let q := p / 2 ^ d
  let r := p % 2 ^ d
  let half := 2 ^ (d - 1)
  if r < half then q * 2 ^ d
  else if r = half then (if q % 2 = 0 then q else q + 1) * 2 ^ d
  else (q + 1) * 2 ^ d

/-- The expression `Math.floor(x * n)` for a draw `x` and a length `n`: the
exact product `mant * n / 2 ^ exp` is rounded to a double, then floored. -/
def floorTimes (x : Draw) (n : Nat) : Int :=
  ((roundProduct (x.mant * n) / 2 ^ x.exp : Nat) : Int)

/-- The loop of `generateReference` with `n` rounds left: each round appends
`chars.charAt(Math.floor(Math.random() * chars.length))`; `k` is the number of
calls of `Math.random` made before. -/
def referenceLoop (random : Nat → Draw) : Nat → Nat → String → String
  | 0, _, ref => ref
  | n + 1, k, ref =>
    referenceLoop random n (k + 1) (ref ++ charAt chars (floorTimes (random k) chars.length))

/-- The function `generateReference()`: its result, and the state after it. -/
def generateReference (env : Env Num) (s : State Num) : String × State Num :=
  (referenceLoop env.random 8 s.randomCalls "", { s with randomCalls := s.randomCalls + 8 })

/-- The function `reportAnonymous()`. -/
def reportAnonymous (s : State Num) : State Num :=
  let s1 := showPage { s with sharedReport := false } 5
  { s1 with referenceContainer := s1.referenceContainer.map (fun _ => "none") }

/-- The function `shareDetails()`. -/
def shareDetails (s : State Num) : State Num :=
  { s with sharedReport := true, contactForm := s.contactForm.map (fun _ => "block") }

/-- The function `submitReport()`. -/
def submitReport (env : Env Num) (s : State Num) : State Num :=
  let name := s.nameInput.getD []
  let email := s.emailInput.getD []
  if name ≠ [] ∧ email ≠ [] then
    let s1 := showPage s 5
    if s1.sharedReport then
      let r := generateReference env s1
      { r.2 with
        referenceNumber := r.2.referenceNumber.map (fun _ => r.1)
        referenceContainer := r.2.referenceContainer.map (fun _ => "block") }
    else
      { s1 with referenceContainer := s1.referenceContainer.map (fun _ => "none") }
  else
    { s with alerts := s.alerts ++ ["Please fill name and email."] }

/-! ## Sessions -/

/-- What can happen to a loaded page: a call of one of the functions of the
script (from a button or otherwise), a timer or a geocoding request coming
due, a click on the map, or the user typing into a field. -/
inductive Op (Num : Type) where
  | nextPage
  | prevPage
  | selectIssue (issue : Text)
  | showPage (index : Int)
  | initMap
  | mapClick (lat lng : Num)
  | fireTimer (i : Nat)
  | findAddress
  | geocodeSettled (i : Nat) (r : Reply)
  | reportAnonymous
  | shareDetails
  | submitReport
  | typeAddress (t : Text)
  | typeName (t : Text)
  | typeEmail (t : Text)

/-- One event. -/
def step (env : Env Num) (s : State Num) : Op Num → State Num
  | Op.nextPage => nextPage s
  | Op.prevPage => prevPage s
  | Op.selectIssue issue => selectIssue s issue
  | Op.showPage index => showPage s index
  | Op.initMap => initMap env s
  | Op.mapClick lat lng => mapClick env s lat lng
  | Op.fireTimer i => fireTimer env s i
  | Op.findAddress => findAddress env s
  | Op.geocodeSettled i r => geocodeSettled env s i r
  | Op.reportAnonymous => reportAnonymous s
  | Op.shareDetails => shareDetails s
  | Op.submitReport => submitReport env s
  | Op.typeAddress t => { s with addressInput := s.addressInput.map (fun _ => t) }
  | Op.typeName t => { s with nameInput := s.nameInput.map (fun _ => t) }
  | Op.typeEmail t => { s with emailInput := s.emailInput.map (fun _ => t) }

/-- A sequence of events, oldest first. -/
def run (env : Env Num) (s : State Num) (ops : List (Op Num)) : State Num :=
  ops.foldl (step env) s

/-- The page as the HTML gives it, before the script runs. -/
structure Document where
  active : List Bool
  addressInput : Option Text
  nameInput : Option Text
  emailInput : Option Text
  referenceNumber : Option String
  referenceContainer : Option String
  contactForm : Option String
deriving DecidableEq, Repr

/-- The state once the script has been evaluated: the declarations at its
top, then the statement `showPage(currentPage)`. -/
def load (d : Document) : State Num :=
  showPage
    { currentPage := 0
      active := d.active
      sharedReport := false
      selectedIssue := []
      map := none
      marker := none
      mapInitialized := false
      timers := []
      addressInput := d.addressInput
      nameInput := d.nameInput
      emailInput := d.emailInput
      referenceNumber := d.referenceNumber
      referenceContainer := d.referenceContainer
      contactForm := d.contactForm
      shown := []
      alerts := []
      errors := []
      fetches := []
      pending := []
      mapsBuilt := 0
      markersBuilt := 0
      randomCalls := 0 }
    0

/-! ## Sample data -/

/-- An environment over text numbers: Leaflet loaded, numbers kept as their
text, every random draw `0`. -/
def sampleEnv : Env Text :=
  { leaflet := true
    parseFloat := fun t => t
    numToString := fun t => t
    toFixed5 := fun t => t
    random := fun _ => { mant := 0, exp := 0 } }

/-- A six page document with every element present. -/
def sampleDoc : Document :=
  { active := [false, false, false, false, false, false]
    addressInput := some []
    nameInput := some []
    emailInput := some []
    referenceNumber := some ""
    referenceContainer := some "none"
    contactForm := some "none" }

/-- Whether page `i` is the visible one: its class list holds `active`. -/
def visible (s : State Num) (i : Nat) : Bool := s.active.getD i false

/-! ## Invariants and observations -/

/-- Two states with the same position in the same number of pages. -/
def SameNav (s t : State Num) : Prop :=
  t.currentPage = s.currentPage ∧ t.active.length = s.active.length

/-- The position is a valid index of the page list. -/
def NavInv (s : State Num) : Prop :=
  0 ≤ s.currentPage ∧ s.currentPage ≤ pagesLength s - 1

/-- The identities of the map and the marker held, and the numbers of maps
and markers constructed so far. -/
def handles (s : State Num) : Option Nat × Option Nat × Nat × Nat :=
  (s.map.map (fun m => m.id), s.marker.map (fun m => m.id), s.mapsBuilt, s.markersBuilt)

/-- Either nothing has been constructed and nothing is held, or one map and
one marker have been constructed and both are held. -/
def MapInv (s : State Num) : Prop :=
  handles s = (none, none, 0, 0) ∨ handles s = (some 0, some 0, 1, 1)

/-- What an event may do to the handles: nothing, or the one construction. -/
def HandlesStep (s t : State Num) : Prop :=
  handles t = handles s ∨ (handles s = (none, none, 0, 0) ∧ handles t = (some 0, some 0, 1, 1))

/-- The alerts shown, the requests sent and the requests still open. -/
def outside (s : State Num) : List String × List Text × List Text :=
  (s.alerts, s.fetches, s.pending)

/-- A draw for which `generateReference` picks the character `c`: with `k`
the index of `c` in `chars`, the least multiple of `2 ^ -10` whose product
with 36 is at least `k`. -/
def drawFor (c : Char) : Draw :=
  { mant := (1024 * chars.data.indexOf c + 35) / 36, exp := 10 }

/-- A draw whose exact product with 36 is just below 34 and whose double
product is 34: `4253399648072135 / 2 ^ 52`. -/
def tieDraw : Draw := { mant := 4253399648072135, exp := 52 }

/-- A document without any `.page` section. -/
def emptyDoc : Document :=
  { active := []
    addressInput := some []
    nameInput := some []
    emailInput := some []
    referenceNumber := some ""
    referenceContainer := some "none"
    contactForm := some "none" }

/-! ## Navigation -/

theorem showPage_active (s : State Num) (k : Int) :
    (showPage s k).active = activeFlags s.active.length k := by
  unfold showPage scheduleMap
  dsimp only
  split_ifs <;> rfl

theorem showPage_length (s : State Num) (k : Int) :
    (showPage s k).active.length = s.active.length := by
  simp [showPage_active, activeFlags]

theorem showPage_visible (s : State Num) (k : Int) (i : Nat) :
    visible (showPage s k) i = true ↔ i < s.active.length ∧ (i : Int) = k := by
  unfold visible
  rw [showPage_active]
  unfold activeFlags
  by_cases h : i < s.active.length
  · simp [List.getD_eq_getElem?_getD, List.getElem?_range, h]
  · have hn : (List.range s.active.length)[i]? = none :=
      List.getElem?_eq_none (by simpa using h)
    simp [List.getD_eq_getElem?_getD, hn, h]

theorem showPage_currentPage (s : State Num) (k : Int) :
    (showPage s k).currentPage = s.currentPage := by
  unfold showPage scheduleMap
  dsimp only
  split_ifs <;> rfl

theorem showPage_shown (s : State Num) (k : Int) :
    (showPage s k).shown = s.shown ++ [k] := by
  unfold showPage scheduleMap
  dsimp only
  split_ifs <;> rfl

theorem SameNav.refl (s : State Num) : SameNav s s := ⟨rfl, rfl⟩

theorem SameNav.comp {s t u : State Num} (h1 : SameNav s t) (h2 : SameNav t u) :
    SameNav s u :=
  ⟨h2.1.trans h1.1, h2.2.trans h1.2⟩

theorem showPage_nav (s : State Num) (k : Int) : SameNav s (showPage s k) :=
  ⟨showPage_currentPage s k, showPage_length s k⟩

theorem invalidateSize_nav (s : State Num) : SameNav s (invalidateSize s) := by
  unfold invalidateSize
  split <;> exact ⟨rfl, rfl⟩

theorem initMap_nav (env : Env Num) (s : State Num) : SameNav s (initMap env s) := by
  unfold initMap
  split_ifs
  · exact ⟨rfl, rfl⟩
  · exact invalidateSize_nav s
  · exact ⟨rfl, rfl⟩

theorem placeMarker_nav (s : State Num) (p : Num × Num) (l : Text) :
    SameNav s (placeMarker s p l) := by
  unfold placeMarker
  split <;> exact ⟨rfl, rfl⟩

theorem setView_nav (s : State Num) (c : Num × Num) (z : Nat) : SameNav s (setView s c z) := by
  unfold setView
  split <;> exact ⟨rfl, rfl⟩

theorem ensureShown_nav (s : State Num) : SameNav s (ensureShown s) := by
  unfold ensureShown
  split_ifs
  · exact showPage_nav s _
  · exact SameNav.refl s

theorem locate_nav (s : State Num) (c : Num × Num) (l : Text) : SameNav s (locate s c l) := by
  unfold locate
  dsimp only
  split_ifs
  · exact ((ensureShown_nav s).comp (setView_nav _ c 16)).comp (placeMarker_nav _ c l)
  · exact ensureShown_nav s

theorem mapClick_nav (env : Env Num) (s : State Num) (lat lng : Num) :
    SameNav s (mapClick env s lat lng) := by
  unfold mapClick
  split
  · exact SameNav.refl s
  · split_ifs
    · exact SameNav.refl s
    · exact placeMarker_nav s _ _

theorem fireTimer_nav (env : Env Num) (s : State Num) (i : Nat) :
    SameNav s (fireTimer env s i) := by
  unfold fireTimer
  split
  · exact SameNav.refl s
  · exact initMap_nav env { s with timers := s.timers.eraseIdx i }
  · exact invalidateSize_nav { s with timers := s.timers.eraseIdx i }

theorem findAddress_nav (env : Env Num) (s : State Num) : SameNav s (findAddress env s) := by
  unfold findAddress
  dsimp only
  by_cases h0 : jsTrim (s.addressInput.getD []) = []
  · rw [if_pos h0]
    exact ⟨rfl, rfl⟩
  · rw [if_neg h0]
    split
    · exact locate_nav s _ _
    · split_ifs <;> exact ⟨rfl, rfl⟩

theorem geocodeSettled_nav (env : Env Num) (s : State Num) (i : Nat) (r : Reply) :
    SameNav s (geocodeSettled env s i r) := by
  unfold geocodeSettled
  split
  · exact SameNav.refl s
  · dsimp only
    split
    · exact ⟨rfl, rfl⟩
    · exact ⟨rfl, rfl⟩
    · exact ⟨rfl, rfl⟩
    · exact locate_nav { s with pending := s.pending.eraseIdx i } _ _

theorem reportAnonymous_nav (s : State Num) : SameNav s (reportAnonymous s) :=
  showPage_nav { s with sharedReport := false } 5

theorem submitReport_nav (env : Env Num) (s : State Num) : SameNav s (submitReport env s) := by
  unfold submitReport
  dsimp only
  split_ifs
  · exact showPage_nav s 5
  · exact showPage_nav s 5
  · exact ⟨rfl, rfl⟩

theorem NavInv.of_nav {s t : State Num} (h : NavInv s) (hn : SameNav s t) : NavInv t := by
  unfold NavInv pagesLength at *
  rw [hn.1, hn.2]
  exact h

theorem nextPage_inv (s : State Num) (h : NavInv s) : NavInv (nextPage s) := by
  unfold nextPage
  split_ifs with hlt
  · have hn := showPage_nav { s with currentPage := s.currentPage + 1 } (s.currentPage + 1)
    unfold NavInv pagesLength at *
    rw [hn.1, hn.2]
    dsimp only
    omega
  · exact h

theorem prevPage_inv (s : State Num) (h : NavInv s) : NavInv (prevPage s) := by
  unfold prevPage
  split_ifs with hlt
  · have hn := showPage_nav { s with currentPage := s.currentPage - 1 } (s.currentPage - 1)
    unfold NavInv pagesLength at *
    rw [hn.1, hn.2]
    dsimp only
    omega
  · exact h

theorem step_inv (env : Env Num) (s : State Num) (op : Op Num) (h : NavInv s) :
    NavInv (step env s op) := by
  cases op with
  | nextPage => exact nextPage_inv s h
  | prevPage => exact prevPage_inv s h
  | selectIssue issue => exact nextPage_inv { s with selectedIssue := issue } h
  | showPage index => exact h.of_nav (showPage_nav s index)
  | initMap => exact h.of_nav (initMap_nav env s)
  | mapClick lat lng => exact h.of_nav (mapClick_nav env s lat lng)
  | fireTimer i => exact h.of_nav (fireTimer_nav env s i)
  | findAddress => exact h.of_nav (findAddress_nav env s)
  | geocodeSettled i r => exact h.of_nav (geocodeSettled_nav env s i r)
  | reportAnonymous => exact h.of_nav (reportAnonymous_nav s)
  | shareDetails => exact h
  | submitReport => exact h.of_nav (submitReport_nav env s)
  | typeAddress t => exact h
  | typeName t => exact h
  | typeEmail t => exact h

theorem run_inv (env : Env Num) (ops : List (Op Num)) :
    ∀ s : State Num, NavInv s → NavInv (run env s ops) := by
  induction ops with
  | nil => intro s h; exact h
  | cons op rest ih => intro s h; exact ih (step env s op) (step_inv env s op h)

theorem load_inv (d : Document) (h : 0 < d.active.length) : NavInv (load d : State Num) := by
  have hn : SameNav _ (load d : State Num) := showPage_nav _ 0
  unfold NavInv pagesLength
  rw [hn.1, hn.2]
  dsimp only
  omega

/-! ## The map and its marker -/

theorem showPage_handles (s : State Num) (k : Int) : handles (showPage s k) = handles s := by
  unfold showPage scheduleMap
  dsimp only
  split_ifs <;> rfl

theorem invalidateSize_handles (s : State Num) : handles (invalidateSize s) = handles s := by
  unfold invalidateSize
  cases h : s.map <;> simp [handles, h]

theorem setView_handles (s : State Num) (c : Num × Num) (z : Nat) :
    handles (setView s c z) = handles s := by
  unfold setView
  cases h : s.map <;> simp [handles, h]

theorem setView_marker (s : State Num) (c : Num × Num) (z : Nat) :
    (setView s c z).marker = s.marker := by
  unfold setView
  cases h : s.map <;> rfl

theorem placeMarker_handles (s : State Num) (p : Num × Num) (l : Text)
    (h : s.marker.isSome = true) : handles (placeMarker s p l) = handles s := by
  unfold placeMarker
  cases hm : s.marker with
  | none => simp [hm] at h
  | some mk => simp [handles, hm]

theorem MapInv.marker_of_map {s : State Num} (h : MapInv s) (hm : s.map.isSome = true) :
    s.marker.isSome = true := by
  rcases h with h | h
  · have h1 : s.map.map (fun m => m.id) = none := congrArg Prod.fst h
    cases hs : s.map with
    | none => simp [hs] at hm
    | some m => simp [hs] at h1
  · have h2 : s.marker.map (fun m => m.id) = some 0 := congrArg (fun t => t.2.1) h
    cases hs : s.marker with
    | none => simp [hs] at h2
    | some m => rfl

theorem MapInv.map_of_marker {s : State Num} (h : MapInv s) (hm : s.marker.isSome = true) :
    s.map.isSome = true := by
  rcases h with h | h
  · have h1 : s.marker.map (fun m => m.id) = none := congrArg (fun t => t.2.1) h
    cases hs : s.marker with
    | none => simp [hs] at hm
    | some m => simp [hs] at h1
  · have h2 : s.map.map (fun m => m.id) = some 0 := congrArg Prod.fst h
    cases hs : s.map with
    | none => simp [hs] at h2
    | some m => rfl

theorem MapInv.fresh_of_no_map {s : State Num} (h : MapInv s) (hm : s.map.isSome = false) :
    handles s = (none, none, 0, 0) := by
  rcases h with h | h
  · exact h
  · have h2 : s.map.map (fun m => m.id) = some 0 := congrArg Prod.fst h
    cases hs : s.map with
    | none => simp [hs] at h2
    | some m => simp [hs] at hm

theorem HandlesStep.of_eq {s t : State Num} (h : handles t = handles s) : HandlesStep s t :=
  Or.inl h

theorem initMap_handles (env : Env Num) (s : State Num) (h : MapInv s) :
    HandlesStep s (initMap env s) := by
  unfold initMap
  split_ifs with hl hm
  · exact Or.inl rfl
  · exact Or.inl (invalidateSize_handles s)
  · have hf := h.fresh_of_no_map (by simpa using hm)
    refine Or.inr ⟨hf, ?_⟩
    have h3 : s.mapsBuilt = 0 := congrArg (fun t => t.2.2.1) hf
    have h4 : s.markersBuilt = 0 := congrArg (fun t => t.2.2.2) hf
    simp [handles, h3, h4]

theorem ensureShown_handles (s : State Num) : handles (ensureShown s) = handles s := by
  unfold ensureShown
  split_ifs
  · exact showPage_handles s _
  · rfl

theorem ensureShown_map (s : State Num) : (ensureShown s).map = s.map := by
  unfold ensureShown showPage scheduleMap
  dsimp only
  split_ifs <;> rfl

theorem ensureShown_marker (s : State Num) : (ensureShown s).marker = s.marker := by
  unfold ensureShown showPage scheduleMap
  dsimp only
  split_ifs <;> rfl

theorem locate_handles (s : State Num) (c : Num × Num) (l : Text) (h : MapInv s) :
    handles (locate s c l) = handles s := by
  unfold locate
  dsimp only
  split_ifs with hm
  · rw [ensureShown_map] at hm
    have hk : (setView (ensureShown s) c 16).marker.isSome = true := by
      rw [setView_marker, ensureShown_marker]
      exact h.marker_of_map hm
    rw [placeMarker_handles _ c l hk, setView_handles, ensureShown_handles]
  · exact ensureShown_handles s

theorem mapClick_handles (env : Env Num) (s : State Num) (lat lng : Num) (h : MapInv s) :
    handles (mapClick env s lat lng) = handles s := by
  unfold mapClick
  split
  · rfl
  · rename_i m hm
    split_ifs
    · rfl
    · exact placeMarker_handles s _ _ (h.marker_of_map (by simp [hm]))

theorem fireTimer_handles (env : Env Num) (s : State Num) (i : Nat) (h : MapInv s) :
    HandlesStep s (fireTimer env s i) := by
  unfold fireTimer
  split
  · exact Or.inl rfl
  · exact initMap_handles env { s with timers := s.timers.eraseIdx i } h
  · exact Or.inl (invalidateSize_handles { s with timers := s.timers.eraseIdx i })

theorem nextPage_handles (s : State Num) : handles (nextPage s) = handles s := by
  unfold nextPage
  split_ifs
  · exact showPage_handles _ _
  · rfl

theorem prevPage_handles (s : State Num) : handles (prevPage s) = handles s := by
  unfold prevPage
  split_ifs
  · exact showPage_handles _ _
  · rfl

theorem findAddress_handles (env : Env Num) (s : State Num) (h : MapInv s) :
    handles (findAddress env s) = handles s := by
  unfold findAddress
  dsimp only
  by_cases h0 : jsTrim (s.addressInput.getD []) = []
  · rw [if_pos h0]
    rfl
  · rw [if_neg h0]
    split
    · exact locate_handles s _ _ h
    · split_ifs <;> rfl

theorem geocodeSettled_handles (env : Env Num) (s : State Num) (i : Nat) (r : Reply)
    (h : MapInv s) : handles (geocodeSettled env s i r) = handles s := by
  unfold geocodeSettled
  split
  · rfl
  · dsimp only
    split
    · rfl
    · rfl
    · rfl
    · exact locate_handles { s with pending := s.pending.eraseIdx i } _ _ h

theorem submitReport_handles (env : Env Num) (s : State Num) :
    handles (submitReport env s) = handles s := by
  unfold submitReport
  dsimp only
  split_ifs
  · exact showPage_handles s 5
  · exact showPage_handles s 5
  · rfl

theorem step_handles (env : Env Num) (s : State Num) (op : Op Num) (h : MapInv s) :
    HandlesStep s (step env s op) := by
  cases op with
  | nextPage => exact Or.inl (nextPage_handles s)
  | prevPage => exact Or.inl (prevPage_handles s)
  | selectIssue issue => exact Or.inl (nextPage_handles { s with selectedIssue := issue })
  | showPage index => exact Or.inl (showPage_handles s index)
  | initMap => exact initMap_handles env s h
  | mapClick lat lng => exact Or.inl (mapClick_handles env s lat lng h)
  | fireTimer i => exact fireTimer_handles env s i h
  | findAddress => exact Or.inl (findAddress_handles env s h)
  | geocodeSettled i r => exact Or.inl (geocodeSettled_handles env s i r h)
  | reportAnonymous => exact Or.inl (showPage_handles { s with sharedReport := false } 5)
  | shareDetails => exact Or.inl rfl
  | submitReport => exact Or.inl (submitReport_handles env s)
  | typeAddress t => exact Or.inl rfl
  | typeName t => exact Or.inl rfl
  | typeEmail t => exact Or.inl rfl

theorem step_mapInv (env : Env Num) (s : State Num) (op : Op Num) (h : MapInv s) :
    MapInv (step env s op) := by
  rcases step_handles env s op h with he | ⟨_, he⟩
  · unfold MapInv at *
    rw [he]
    exact h
  · exact Or.inr he

theorem run_mapInv (env : Env Num) (ops : List (Op Num)) :
    ∀ s : State Num, MapInv s → MapInv (run env s ops) := by
  induction ops with
  | nil => intro s h; exact h
  | cons op rest ih => intro s h; exact ih (step env s op) (step_mapInv env s op h)

theorem load_mapInv (d : Document) : MapInv (load d : State Num) :=
  Or.inl (showPage_handles _ 0)

theorem initMap_of_map (env : Env Num) (hl : env.leaflet = true) (t : State Num)
    (h : t.map.isSome = true) : initMap env t = invalidateSize t := by
  unfold initMap
  simp [hl, h]

theorem initMap_map_isSome (env : Env Num) (hl : env.leaflet = true) (s : State Num) :
    (initMap env s).map.isSome = true := by
  unfold initMap
  simp only [hl, Bool.not_true, Bool.false_eq_true, if_false]
  split_ifs with h
  · unfold invalidateSize
    cases hs : s.map with
    | none => simp [hs] at h
    | some m => rfl
  · rfl

theorem initMap_twice (env : Env Num) (hl : env.leaflet = true) (s : State Num) :
    initMap env (initMap env s) = invalidateSize (initMap env s) :=
  initMap_of_map env hl (initMap env s) (initMap_map_isSome env hl s)

theorem invalidateSize_marker (s : State Num) : (invalidateSize s).marker = s.marker := by
  unfold invalidateSize
  cases h : s.map <;> rfl

/-! ## The coordinate pattern -/

theorem isDigit_range (c : Nat) (h : isDigit c = true) : 48 ≤ c ∧ c ≤ 57 := by
  unfold isDigit at h
  simpa using h

theorem isSpace_not_digit (c : Nat) (h : isSpace c = true) : isDigit c = false := by
  unfold isSpace at h
  unfold isDigit
  simp only [Bool.or_eq_true, Bool.and_eq_true, decide_eq_true_eq] at h
  simp only [Bool.and_eq_false_imp, decide_eq_true_eq, decide_eq_false_iff_not]
  omega

theorem isDigit_ne (c : Nat) (h : isDigit c = true) :
    c ≠ 0x2B ∧ c ≠ 0x2D ∧ c ≠ 0x2E ∧ c ≠ 0x2C := by
  have := isDigit_range c h
  omega

theorem isSpace_ne (c : Nat) (h : isSpace c = true) :
    c ≠ 0x2B ∧ c ≠ 0x2D ∧ c ≠ 0x2E ∧ c ≠ 0x2C := by
  refine ⟨?_, ?_, ?_, ?_⟩ <;> (intro hc; rw [hc] at h; revert h; decide)

theorem isDigit_not_space (c : Nat) (h : isDigit c = true) : isSpace c = false := by
  cases hs : isSpace c with
  | false => rfl
  | true => rw [isSpace_not_digit c hs] at h; cases h

/-- A run of characters that satisfy `p`, followed by a text that does not
start with one, is split there by `takeWhile` and `dropWhile`. -/
theorem span_run (p : Nat → Bool) (w rest : Text) (hw : ∀ c ∈ w, p c = true)
    (hr : ∀ c, rest.head? = some c → p c = false) :
    (w ++ rest).takeWhile p = w ∧ (w ++ rest).dropWhile p = rest := by
  induction w with
  | nil =>
    cases rest with
    | nil => exact ⟨rfl, rfl⟩
    | cons c r =>
      have hc := hr c rfl
      simp [List.takeWhile_cons, List.dropWhile_cons, hc]
  | cons a w ih =>
    have ha := hw a (List.mem_cons_self a w)
    have ih' := ih (fun c hc => hw c (List.mem_cons_of_mem a hc))
    simp [List.takeWhile_cons, List.dropWhile_cons, ha, ih'.1, ih'.2]

theorem matchSign_sound (cs : Text) :
    cs = (matchSign cs).1 ++ (matchSign cs).2 ∧
      ((matchSign cs).1 = [] ∨ (matchSign cs).1 = [0x2B] ∨ (matchSign cs).1 = [0x2D]) := by
  cases cs with
  | nil => exact ⟨rfl, Or.inl rfl⟩
  | cons c r =>
    simp only [matchSign]
    split_ifs with h
    · refine ⟨rfl, ?_⟩
      rcases h with h | h
      · exact Or.inr (Or.inl (by rw [h]))
      · exact Or.inr (Or.inr (by rw [h]))
    · exact ⟨rfl, Or.inl rfl⟩

theorem matchFraction_sound (cs : Text) :
    cs = (matchFraction cs).1 ++ (matchFraction cs).2 ∧
      ((matchFraction cs).1 = [] ∨
        ∃ fs : Text, (matchFraction cs).1 = 0x2E :: fs ∧ fs ≠ [] ∧
          ∀ c ∈ fs, isDigit c = true) := by
  cases cs with
  | nil => exact ⟨rfl, Or.inl rfl⟩
  | cons c r =>
    simp only [matchFraction]
    split_ifs with h
    · refine ⟨?_, Or.inr ⟨r.takeWhile isDigit, by rw [h.1], h.2, ?_⟩⟩
      · simp
      · intro x hx
        exact List.mem_takeWhile_imp hx
    · exact ⟨rfl, Or.inl rfl⟩

theorem matchNumber_sound (cs g r : Text) (h : matchNumber cs = some (g, r)) :
    cs = g ++ r ∧ IsNumberText g := by
  unfold matchNumber at h
  dsimp only at h
  split_ifs at h with hds
  simp only [Option.some.injEq, Prod.mk.injEq] at h
  obtain ⟨hg, hr⟩ := h
  have hs := matchSign_sound cs
  have hf := matchFraction_sound ((matchSign cs).2.dropWhile isDigit)
  constructor
  · rw [← hg, ← hr]
    conv_lhs => rw [hs.1, ← List.takeWhile_append_dropWhile isDigit (matchSign cs).2, hf.1]
    simp [List.append_assoc]
  · exact ⟨(matchSign cs).1, (matchSign cs).2.takeWhile isDigit,
      (matchFraction ((matchSign cs).2.dropWhile isDigit)).1, hg.symm, hs.2, hds,
      fun c hc => List.mem_takeWhile_imp hc, hf.2⟩

theorem matchSign_complete (sign rest : Text)
    (hs : sign = [] ∨ sign = [0x2B] ∨ sign = [0x2D])
    (hr : sign = [] → ∀ c, rest.head? = some c → c ≠ 0x2B ∧ c ≠ 0x2D) :
    matchSign (sign ++ rest) = (sign, rest) := by
  rcases hs with hs | hs | hs
  · subst hs
    cases rest with
    | nil => rfl
    | cons c r =>
      have hc := hr rfl c rfl
      show matchSign (c :: r) = ([], c :: r)
      simp only [matchSign]
      rw [if_neg (by tauto)]
  · subst hs
    rfl
  · subst hs
    rfl

theorem matchFraction_complete (frac rest : Text)
    (hf : frac = [] ∨ ∃ fs : Text, frac = 0x2E :: fs ∧ fs ≠ [] ∧ ∀ c ∈ fs, isDigit c = true)
    (hr : ∀ c, rest.head? = some c → isDigit c = false ∧ c ≠ 0x2E) :
    matchFraction (frac ++ rest) = (frac, rest) := by
  rcases hf with hf | ⟨fs, hf, hne, hd⟩
  · subst hf
    cases rest with
    | nil => rfl
    | cons c r =>
      have hc := hr c rfl
      show matchFraction (c :: r) = ([], c :: r)
      simp only [matchFraction]
      rw [if_neg (fun h => hc.2 h.1)]
  · subst hf
    have hsp := span_run isDigit fs rest hd (fun c hc => (hr c hc).1)
    show matchFraction (0x2E :: (fs ++ rest)) = (0x2E :: fs, rest)
    simp only [matchFraction]
    rw [hsp.1, hsp.2, if_pos ⟨trivial, hne⟩]

theorem matchNumber_complete (g rest : Text) (hg : IsNumberText g)
    (hr : ∀ c, rest.head? = some c → isDigit c = false ∧ c ≠ 0x2E) :
    matchNumber (g ++ rest) = some (g, rest) := by
  obtain ⟨sign, ds, frac, hg, hs, hne, hd, hf⟩ := hg
  have hfrac_head : ∀ c, (frac ++ rest).head? = some c → isDigit c = false := by
    intro c hc
    rcases hf with hf | ⟨fs, hf, _, _⟩
    · subst hf
      exact (hr c hc).1
    · subst hf
      simp at hc
      rw [← hc]
      decide
  have hsign : matchSign (sign ++ (ds ++ (frac ++ rest))) = (sign, ds ++ (frac ++ rest)) := by
    apply matchSign_complete sign _ hs
    intro _ c hc
    cases ds with
    | nil => exact absurd rfl hne
    | cons d ds' =>
      simp at hc
      have := isDigit_ne d (hd d (List.mem_cons_self d ds'))
      rw [← hc]
      exact ⟨this.1, this.2.1⟩
  have hsp := span_run isDigit ds (frac ++ rest) hd hfrac_head
  have hfr := matchFraction_complete frac rest hf hr
  subst hg
  unfold matchNumber
  dsimp only
  rw [List.append_assoc, List.append_assoc, hsign]
  dsimp only
  rw [hsp.1, hsp.2, if_neg hne, hfr]

theorem IsNumberText.head_not_space {g : Text} (hg : IsNumberText g) (rest : Text) :
    ∀ c, (g ++ rest).head? = some c → isSpace c = false := by
  obtain ⟨sign, ds, frac, hg, hs, hne, hd, _⟩ := hg
  subst hg
  intro c hc
  cases ds with
  | nil => exact absurd rfl hne
  | cons d ds' =>
    have hdd := hd d (List.mem_cons_self d ds')
    rcases hs with hs | hs | hs
    · subst hs
      simp at hc
      rw [← hc]
      exact isDigit_not_space d hdd
    · subst hs
      simp at hc
      rw [← hc]
      decide
    · subst hs
      simp at hc
      rw [← hc]
      decide

/-- The matcher agrees with the pattern read as a set of texts: it answers
with groups `g1` and `g3` exactly for the texts made of white space, a number
`g1`, white space, a comma, white space, a number `g3` and white space. -/
theorem coordMatch_iff (cs g1 g3 : Text) :
    coordMatch cs = some (g1, g3) ↔ MatchesPair cs g1 g3 := by
  constructor
  · intro h
    unfold coordMatch at h
    split at h
    · cases h
    · rename_i a r1 hm1
      split at h
      · rename_i c r2 hd1
        split_ifs at h with hc
        split at h
        · cases h
        · rename_i b r3 hm3
          split_ifs at h with hend
          simp only [Option.some.injEq, Prod.mk.injEq] at h
          obtain ⟨ha, hb⟩ := h
          subst ha hb
          have h1 := matchNumber_sound _ _ _ hm1
          have h3 := matchNumber_sound _ _ _ hm3
          refine ⟨cs.takeWhile isSpace, r1.takeWhile isSpace, r2.takeWhile isSpace, r3, ?_,
            fun c hc => List.mem_takeWhile_imp hc, fun c hc => List.mem_takeWhile_imp hc,
            fun c hc => List.mem_takeWhile_imp hc, List.dropWhile_eq_nil_iff.mp hend,
            h1.2, h3.2⟩
          have e1 := (List.takeWhile_append_dropWhile isSpace cs).symm
          have e2 := (List.takeWhile_append_dropWhile isSpace r1).symm
          have e3 := (List.takeWhile_append_dropWhile isSpace r2).symm
          rw [hd1, hc] at e2
          rw [h3.1] at e3
          rw [h1.1, e2, e3] at e1
          exact e1
      · cases h
  · rintro ⟨w1, w2, w3, w4, hcs, hw1, hw2, hw3, hw4, hg1, hg3⟩
    subst hcs
    have stop2 : ∀ c, (w2 ++ 0x2C :: (w3 ++ (g3 ++ w4))).head? = some c →
        isDigit c = false ∧ c ≠ 0x2E := by
      intro c hc
      cases w2 with
      | nil =>
        simp at hc
        rw [← hc]
        exact ⟨by decide, by decide⟩
      | cons a w =>
        simp at hc
        rw [← hc]
        have ha := hw2 a (List.mem_cons_self a w)
        exact ⟨isSpace_not_digit a ha, (isSpace_ne a ha).2.2.1⟩
    have stop4 : ∀ c, w4.head? = some c → isDigit c = false ∧ c ≠ 0x2E := by
      intro c hc
      have hm : c ∈ w4 := List.mem_of_mem_head? hc
      exact ⟨isSpace_not_digit c (hw4 c hm), (isSpace_ne c (hw4 c hm)).2.2.1⟩
    have d1 := (span_run isSpace w1 _ hw1 (hg1.head_not_space (w2 ++ 0x2C :: (w3 ++ (g3 ++ w4))))).2
    have m1 := matchNumber_complete g1 _ hg1 stop2
    have d2 := (span_run isSpace w2 (0x2C :: (w3 ++ (g3 ++ w4))) hw2 (by
      intro c hc
      simp at hc
      rw [← hc]
      decide)).2
    have d3 := (span_run isSpace w3 _ hw3 (hg3.head_not_space w4)).2
    have m3 := matchNumber_complete g3 w4 hg3 stop4
    have d4 : w4.dropWhile isSpace = [] := List.dropWhile_eq_nil_iff.mpr hw4
    unfold coordMatch
    rw [d1, m1]
    dsimp only
    rw [d2]
    dsimp only
    rw [if_pos rfl, d3, m3]
    dsimp only
    rw [if_pos d4]

/-! ## Address resolution -/

theorem showPage_outside (s : State Num) (k : Int) : outside (showPage s k) = outside s := by
  unfold showPage scheduleMap
  dsimp only
  split_ifs <;> rfl

theorem locate_outside (s : State Num) (c : Num × Num) (l : Text) :
    outside (locate s c l) = outside s := by
  have h1 : outside (ensureShown s) = outside s := by
    unfold ensureShown
    split_ifs
    · exact showPage_outside s _
    · rfl
  have h2 : ∀ t : State Num, outside (setView t c 16) = outside t := by
    intro t
    unfold setView
    split <;> rfl
  have h3 : ∀ t : State Num, outside (placeMarker t c l) = outside t := by
    intro t
    unfold placeMarker
    split <;> rfl
  unfold locate
  dsimp only
  split_ifs
  · rw [h3, h2, h1]
  · exact h1

theorem coordMatch_nil : coordMatch [] = none := rfl

theorem jsTrim_eq_nil_iff (cs : Text) :
    jsTrim cs = [] ↔ ∀ c ∈ cs, isSpace c = true := by
  unfold jsTrim
  rw [List.reverse_eq_nil_iff, List.dropWhile_eq_nil_iff]
  constructor
  · intro h
    by_contra hne
    have hd : cs.dropWhile isSpace ≠ [] := by
      intro h0
      exact hne (List.dropWhile_eq_nil_iff.mp h0)
    have hhead := List.head_dropWhile_not isSpace cs hd
    have hmem : (cs.dropWhile isSpace).head hd ∈ (cs.dropWhile isSpace).reverse :=
      List.mem_reverse.mpr (List.head_mem hd)
    rw [h _ hmem] at hhead
    exact absurd hhead (by decide)
  · intro h c hc
    have h0 : cs.dropWhile isSpace = [] := List.dropWhile_eq_nil_iff.mpr h
    rw [h0] at hc
    simp at hc

theorem findAddress_of_match (env : Env Num) (s : State Num) (g1 g3 : Text)
    (h : coordMatch (jsTrim (s.addressInput.getD [])) = some (g1, g3)) :
    findAddress env s =
      locate s (env.parseFloat g1, env.parseFloat g3)
        (toUtf16 "Coordinates: " ++ env.numToString (env.parseFloat g1) ++ toUtf16 ", " ++
          env.numToString (env.parseFloat g3)) := by
  have hne : jsTrim (s.addressInput.getD []) ≠ [] := by
    intro h0
    rw [h0, coordMatch_nil] at h
    cases h
  unfold findAddress
  dsimp only
  rw [if_neg hne, h]

theorem findAddress_of_no_match (env : Env Num) (s : State Num)
    (hne : jsTrim (s.addressInput.getD []) ≠ [])
    (h : coordMatch (jsTrim (s.addressInput.getD [])) = none) :
    findAddress env s =
      if encodable (jsTrim (s.addressInput.getD [])) then
        { s with
          fetches := s.fetches ++ [jsTrim (s.addressInput.getD [])]
          pending := s.pending ++ [jsTrim (s.addressInput.getD [])] }
      else geocodingFailed s := by
  unfold findAddress
  dsimp only
  rw [if_neg hne, h]

theorem matches_iff_coordMatch (cs : Text) :
    (∃ g1 g3, MatchesPair cs g1 g3) ↔ coordMatch cs ≠ none := by
  constructor
  · rintro ⟨g1, g3, hm⟩ hc
    rw [(coordMatch_iff cs g1 g3).mpr hm] at hc
    cases hc
  · intro hc
    cases hg : coordMatch cs with
    | none => exact absurd hg hc
    | some g => exact ⟨g.1, g.2, (coordMatch_iff cs g.1 g.2).mp hg⟩

/-- With the map not created yet, the coordinate branch of `findAddress()`
shows the location page and does nothing else: no map, no viewport. -/
theorem findAddress_coordinates_no_map (env : Env Num) (s : State Num) (g1 g3 : Text)
    (h : coordMatch (jsTrim (s.addressInput.getD [])) = some (g1, g3))
    (hi : s.mapInitialized = false) (hm : s.map = none) :
    findAddress env s = showPage s LOCATION_PAGE_INDEX ∧ (findAddress env s).map = none := by
  have hs : (showPage s LOCATION_PAGE_INDEX).map = none := by
    have := ensureShown_map s
    unfold ensureShown at this
    simp only [hi, Bool.not_false, if_true] at this
    rw [this, hm]
  have h1 : findAddress env s = showPage s LOCATION_PAGE_INDEX := by
    rw [findAddress_of_match env s g1 g3 h]
    unfold locate ensureShown
    simp [hi, hs]
  exact ⟨h1, by rw [h1, hs]⟩

/-- With the map created, the coordinate branch of `findAddress()` centres it
on the parsed pair at zoom 16 and moves the marker there, labelled with both
numbers. -/
theorem findAddress_coordinates_on_map (env : Env Num) (s : State Num) (g1 g3 : Text)
    (m : MapView Num) (mk : Marker Num)
    (h : coordMatch (jsTrim (s.addressInput.getD [])) = some (g1, g3))
    (hi : s.mapInitialized = true) (hm : s.map = some m) (hk : s.marker = some mk) :
    findAddress env s =
      { s with
        map := some { m with
          center := (env.parseFloat g1, env.parseFloat g3), zoom := 16 }
        marker := some { mk with
          pos := (env.parseFloat g1, env.parseFloat g3)
          popup := toUtf16 "Coordinates: " ++ env.numToString (env.parseFloat g1) ++
            toUtf16 ", " ++ env.numToString (env.parseFloat g3)
          popupOpen := true } } := by
  rw [findAddress_of_match env s g1 g3 h]
  unfold locate ensureShown
  simp [hi, hm, setView, placeMarker, hk]

/-! ## Reference codes -/

theorem chars_length : chars.length = 36 := by decide

theorem excessBits_small (f p : Nat) (h : p < 2 ^ 53) : excessBits f p = 0 := by
  cases f with
  | zero => rfl
  | succ f =>
    show (if p < 2 ^ 53 then 0 else excessBits f (p / 2) + 1) = 0
    rw [if_pos h]

theorem excessBits_le (f : Nat) : ∀ p k : Nat, p < 2 ^ (53 + k) → excessBits f p ≤ k := by
  induction f with
  | zero =>
    intro p k _
    simp [excessBits]
  | succ f ih =>
    intro p k h
    by_cases hp : p < 2 ^ 53
    · show (if p < 2 ^ 53 then 0 else excessBits f (p / 2) + 1) ≤ k
      rw [if_pos hp]
      exact Nat.zero_le _
    · cases k with
      | zero => exact absurd h hp
      | succ k =>
        have h2 : p / 2 < 2 ^ (53 + k) := by
          have hpow : 2 ^ (53 + (k + 1)) = 2 ^ (53 + k) * 2 := by
            rw [← Nat.add_assoc, Nat.pow_succ]
          rw [hpow] at h
          exact Nat.div_lt_of_lt_mul (by rwa [Nat.mul_comm] at h)
        have := ih (p / 2) k h2
        show (if p < 2 ^ 53 then 0 else excessBits f (p / 2) + 1) ≤ k + 1
        rw [if_neg hp]
        omega

/-- Rounding to 53 bits leaves an integer of at most 53 bits as it is. -/
theorem roundProduct_small (p : Nat) (h : p < 2 ^ 53) : roundProduct p = p := by
  unfold roundProduct
  rw [excessBits_small p p h]
  have h1 : p % 2 ^ 0 = 0 := by rw [Nat.pow_zero, Nat.mod_one]
  have h2 : p / 2 ^ 0 * 2 ^ 0 = p := by rw [Nat.pow_zero, Nat.div_one, Nat.mul_one]
  dsimp only
  rw [h1, if_pos (by norm_num), h2]

/-- Rounding to 53 bits adds at most half of the last place kept. -/
theorem roundProduct_le (p : Nat) : roundProduct p ≤ p + 2 ^ (excessBits p p - 1) := by
  unfold roundProduct
  dsimp only
  generalize excessBits p p = d
  have hD : 2 ^ d ≤ 2 * 2 ^ (d - 1) := by
    cases d with
    | zero => simp
    | succ d => simp [Nat.pow_succ, Nat.mul_comm]
  have hdm := Nat.div_add_mod p (2 ^ d)
  have hr : p % 2 ^ d < 2 ^ d := Nat.mod_lt _ (Nat.pos_pow_of_pos d (by norm_num))
  have hmul : 2 ^ d * (p / 2 ^ d) = p / 2 ^ d * 2 ^ d := Nat.mul_comm _ _
  have hsucc : (p / 2 ^ d + 1) * 2 ^ d = p / 2 ^ d * 2 ^ d + 2 ^ d := Nat.succ_mul _ _
  split_ifs <;> omega

/-- For a double below 1 the double product with 36 stays below 36. -/
theorem floorTimes_lt (x : Draw) (h : x.Valid) : floorTimes x chars.length < 36 := by
  obtain ⟨hm, _, hlt⟩ := h
  rw [chars_length]
  unfold floorTimes
  have hd : excessBits (x.mant * 36) (x.mant * 36) ≤ 6 :=
    excessBits_le _ _ 6 (by
      have : (2 : Nat) ^ (53 + 6) = 2 ^ 53 * 64 := by norm_num
      rw [this]
      omega)
  have hhalf : 2 ^ (excessBits (x.mant * 36) (x.mant * 36) - 1) ≤ 2 ^ 5 :=
    Nat.pow_le_pow_right (by norm_num) (by omega)
  have hround := roundProduct_le (x.mant * 36)
  have h32 : (2 : Nat) ^ 5 = 32 := by norm_num
  have hdiv : roundProduct (x.mant * 36) / 2 ^ x.exp < 36 := by
    apply Nat.div_lt_of_lt_mul
    omega
  exact_mod_cast hdiv

/-- Rounding to 53 bits never goes below the bits kept. -/
theorem roundProduct_ge (p : Nat) :
    p / 2 ^ excessBits p p * 2 ^ excessBits p p ≤ roundProduct p := by
  unfold roundProduct
  dsimp only
  generalize excessBits p p = d
  have hsucc : (p / 2 ^ d + 1) * 2 ^ d = p / 2 ^ d * 2 ^ d + 2 ^ d := Nat.succ_mul _ _
  split_ifs <;> omega

/-- The floor of the exact product of a draw with `n`. -/
theorem floor_value_mul (x : Draw) (n : Nat) :
    Int.floor (x.value * (n : ℚ)) = ((x.mant * n / 2 ^ x.exp : Nat) : Int) := by
  have h : x.value * (n : ℚ) = ((x.mant * n : Nat) : ℚ) / ((2 ^ x.exp : Nat) : ℚ) := by
    unfold Draw.value
    push_cast
    ring
  rw [h, ← Int.natCast_floor_eq_floor (by positivity), Nat.floor_div_eq_div]

/-- The double product with 36, floored, is the floor of the exact product or
one more. -/
theorem floorTimes_near (x : Draw) (h : x.Valid) :
    Int.floor (x.value * 36) ≤ floorTimes x 36 ∧
      floorTimes x 36 ≤ Int.floor (x.value * 36) + 1 := by
  obtain ⟨hm, _, hlt⟩ := h
  have hfl := floor_value_mul x 36
  rw [show ((36 : Nat) : ℚ) = 36 by norm_num] at hfl
  rw [hfl]
  unfold floorTimes
  have hE : 0 < 2 ^ x.exp := Nat.pos_pow_of_pos _ (by norm_num)
  by_cases hp : x.mant * 36 < 2 ^ 53
  · rw [roundProduct_small _ hp]
    exact ⟨le_refl _, by omega⟩
  · have hd6 : excessBits (x.mant * 36) (x.mant * 36) ≤ 6 :=
      excessBits_le _ _ 6 (by
        have : (2 : Nat) ^ (53 + 6) = 2 ^ 53 * 64 := by norm_num
        rw [this]
        omega)
    have he : 48 ≤ x.exp := by
      have h1 : 2 ^ 53 < 2 ^ (x.exp + 6) := by
        have : (2 : Nat) ^ (x.exp + 6) = 2 ^ x.exp * 64 := by rw [Nat.pow_add]
        rw [this]
        omega
      have := (Nat.pow_lt_pow_iff_right (by norm_num : 1 < 2)).mp h1
      omega
    have hE32 : 2 ^ 5 ≤ 2 ^ x.exp := Nat.pow_le_pow_right (by norm_num) (by omega)
    have hhalf : 2 ^ (excessBits (x.mant * 36) (x.mant * 36) - 1) ≤ 2 ^ 5 :=
      Nat.pow_le_pow_right (by norm_num) (by omega)
    have hle := roundProduct_le (x.mant * 36)
    have hge := roundProduct_ge (x.mant * 36)
    have hdvd : 2 ^ excessBits (x.mant * 36) (x.mant * 36) ∣ 2 ^ x.exp :=
      Nat.pow_dvd_pow 2 (by omega)
    have hD : 0 < 2 ^ excessBits (x.mant * 36) (x.mant * 36) :=
      Nat.pos_pow_of_pos _ (by norm_num)
    have hlow : x.mant * 36 / 2 ^ x.exp * 2 ^ x.exp ≤ roundProduct (x.mant * 36) := by
      obtain ⟨c, hc⟩ := hdvd
      have h1 : x.mant * 36 / 2 ^ x.exp * 2 ^ x.exp ≤ x.mant * 36 := Nat.div_mul_le_self _ _
      have h2 : x.mant * 36 / 2 ^ x.exp * c ≤
          x.mant * 36 / 2 ^ excessBits (x.mant * 36) (x.mant * 36) := by
        rw [Nat.le_div_iff_mul_le hD]
        calc x.mant * 36 / 2 ^ x.exp * c * 2 ^ excessBits (x.mant * 36) (x.mant * 36)
            = x.mant * 36 / 2 ^ x.exp * (2 ^ excessBits (x.mant * 36) (x.mant * 36) * c) := by
              ring
          _ = x.mant * 36 / 2 ^ x.exp * 2 ^ x.exp := by rw [← hc]
          _ ≤ x.mant * 36 := h1
      calc x.mant * 36 / 2 ^ x.exp * 2 ^ x.exp
          = x.mant * 36 / 2 ^ x.exp * c * 2 ^ excessBits (x.mant * 36) (x.mant * 36) := by
            rw [hc]
            ring
        _ ≤ x.mant * 36 / 2 ^ excessBits (x.mant * 36) (x.mant * 36) *
              2 ^ excessBits (x.mant * 36) (x.mant * 36) := Nat.mul_le_mul_right _ h2
        _ ≤ roundProduct (x.mant * 36) := hge
    have h1 : x.mant * 36 / 2 ^ x.exp ≤ roundProduct (x.mant * 36) / 2 ^ x.exp :=
      (Nat.le_div_iff_mul_le hE).mpr hlow
    have h2 : roundProduct (x.mant * 36) / 2 ^ x.exp ≤ x.mant * 36 / 2 ^ x.exp + 1 := by
      have hlt2 : roundProduct (x.mant * 36) < (x.mant * 36 / 2 ^ x.exp + 1 + 1) * 2 ^ x.exp := by
        have hdm := Nat.div_add_mod (x.mant * 36) (2 ^ x.exp)
        have hr := Nat.mod_lt (x.mant * 36) hE
        have e1 : (x.mant * 36 / 2 ^ x.exp + 1 + 1) * 2 ^ x.exp =
            2 ^ x.exp * (x.mant * 36 / 2 ^ x.exp) + 2 ^ x.exp + 2 ^ x.exp := by ring
        omega
      have := (Nat.div_lt_iff_lt_mul hE).mpr hlt2
      omega
    exact ⟨by exact_mod_cast h1, by exact_mod_cast h2⟩

theorem charAt_drawn (x : Draw) (h : x.Valid) :
    ∃ c, c ∈ chars.data ∧
      chars.data[(floorTimes x chars.length).toNat]? = some c ∧
      charAt chars (floorTimes x chars.length) = String.singleton c := by
  have hf1 := floorTimes_lt x h
  have hf0 : 0 ≤ floorTimes x chars.length := by
    unfold floorTimes
    exact Int.ofNat_nonneg _
  have hlen : chars.data.length = 36 := chars_length
  have hlt : (floorTimes x chars.length).toNat < chars.data.length := by omega
  refine ⟨chars.data[(floorTimes x chars.length).toNat], List.getElem_mem _,
    List.getElem?_eq_getElem hlt, ?_⟩
  unfold charAt
  rw [if_neg (by omega), List.getElem?_eq_getElem hlt]

theorem singleton_append_mk (c : Char) (cs : List Char) :
    String.singleton c ++ String.mk cs = String.mk (c :: cs) := by
  apply String.ext
  simp [String.data_append, String.singleton]

/-- With every draw a double in `[0, 1)`, the loop appends one character of
`chars` per round: the one at index `Math.floor(r * 36)`. -/
theorem referenceLoop_spec (random : Nat → Draw) :
    ∀ (n k : Nat) (ref : String),
      (∀ i, i < n → (random (k + i)).Valid) →
      ∃ cs : List Char, cs.length = n ∧
        (∀ i, i < n →
          cs[i]? = chars.data[(floorTimes (random (k + i)) chars.length).toNat]?) ∧
        (∀ c ∈ cs, c ∈ chars.data) ∧
        referenceLoop random n k ref = ref ++ String.mk cs := by
  intro n
  induction n with
  | zero =>
    intro k ref _
    refine ⟨[], rfl, ?_, ?_, ?_⟩
    · intro i hi
      omega
    · intro c hc
      simp at hc
    · apply String.ext
      simp [referenceLoop, String.data_append]
  | succ n ih =>
    intro k ref h
    obtain ⟨c, hc, hidx, hat⟩ := charAt_drawn (random k) (h 0 (by omega))
    have h' : ∀ i, i < n → (random (k + 1 + i)).Valid := by
      intro i hi
      have := h (i + 1) (by omega)
      rw [show k + (i + 1) = k + 1 + i by omega] at this
      exact this
    obtain ⟨cs, hlen, hget, hmem, hloop⟩ := ih (k + 1) (ref ++ String.singleton c) h'
    refine ⟨c :: cs, by simp [hlen], ?_, ?_, ?_⟩
    · intro i hi
      cases i with
      | zero => simpa using hidx.symm
      | succ j =>
        have := hget j (by omega)
        rw [show k + 1 + j = k + (j + 1) by omega] at this
        simpa using this
    · intro x hx
      rcases List.mem_cons.mp hx with hx | hx
      · rw [hx]
        exact hc
      · exact hmem x hx
    · show referenceLoop random n (k + 1)
          (ref ++ charAt chars (floorTimes (random k) chars.length)) = _
      rw [hat, hloop, String.append_assoc, singleton_append_mk]

theorem showPage_randomCalls (s : State Num) (k : Int) :
    (showPage s k).randomCalls = s.randomCalls := by
  unfold showPage scheduleMap
  dsimp only
  split_ifs <;> rfl

theorem showPage_sharedReport (s : State Num) (k : Int) :
    (showPage s k).sharedReport = s.sharedReport := by
  unfold showPage scheduleMap
  dsimp only
  split_ifs <;> rfl

theorem showPage_reference (s : State Num) (k : Int) :
    (showPage s k).referenceContainer = s.referenceContainer ∧
      (showPage s k).referenceNumber = s.referenceNumber := by
  unfold showPage scheduleMap
  dsimp only
  split_ifs <;> exact ⟨rfl, rfl⟩

theorem visible_showPage_five (s : State Num) (h6 : s.active.length = 6) (i : Nat) :
    visible (showPage s 5) i = true ↔ i = 5 := by
  rw [showPage_visible, h6]
  omega

/-- What `submitReport()` returns when both fields are filled. -/
theorem submitReport_filled (env : Env Num) (s : State Num)
    (hn : s.nameInput.getD [] ≠ []) (he : s.emailInput.getD [] ≠ []) :
    submitReport env s =
      if s.sharedReport then
        { showPage s 5 with
          randomCalls := s.randomCalls + 8
          referenceNumber := s.referenceNumber.map (fun _ => (generateReference env s).1)
          referenceContainer := s.referenceContainer.map (fun _ => "block") }
      else
        { showPage s 5 with
          referenceContainer := s.referenceContainer.map (fun _ => "none") } := by
  unfold submitReport generateReference
  dsimp only
  rw [if_pos ⟨hn, he⟩]
  simp only [showPage_sharedReport, showPage_randomCalls, (showPage_reference s 5).1,
    (showPage_reference s 5).2]

theorem drawFor_valid (c : Char) (hc : c ∈ chars.data) : (drawFor c).Valid := by
  have hlt : chars.data.indexOf c < 36 := by
    have := List.indexOf_lt_length.mpr hc
    rwa [show chars.data.length = 36 from chars_length] at this
  unfold Draw.Valid drawFor
  dsimp only
  have h10 : (2 : Nat) ^ 10 = 1024 := by norm_num
  have h53 : (1024 : Nat) < 2 ^ 53 := by norm_num
  refine ⟨?_, by omega, ?_⟩ <;> omega

theorem drawFor_index (c : Char) (hc : c ∈ chars.data) :
    chars.data[(floorTimes (drawFor c) chars.length).toNat]? = some c := by
  have hlt : chars.data.indexOf c < chars.data.length := List.indexOf_lt_length.mpr hc
  have hlt' : chars.data.indexOf c < 36 := by
    rwa [show chars.data.length = 36 from chars_length] at hlt
  have hval : floorTimes (drawFor c) chars.length = ((chars.data.indexOf c : Nat) : Int) := by
    rw [chars_length]
    unfold floorTimes drawFor
    dsimp only
    have h53 : (40000 : Nat) < 2 ^ 53 := by norm_num
    rw [roundProduct_small _ (by omega)]
    have h10 : (2 : Nat) ^ 10 = 1024 := by norm_num
    rw [h10]
    congr 1
    omega
  rw [hval, Int.toNat_ofNat, List.getElem?_eq_getElem hlt, List.getElem_indexOf hlt]

theorem mem_chars_A : 'A' ∈ chars.data := by decide

theorem zero_draw_valid : Draw.Valid { mant := 0, exp := 0 } :=
  ⟨by decide, by decide, by decide⟩

/-! ## Claims -/

/-- C1 (as amended). `nextPage()` is a no-op whenever `currentPage` is at or
beyond `pages.length - 1`, and `prevPage()` whenever `currentPage` is at or
below 0: the whole state, display requests and timers included, is unchanged.
Whenever `currentPage < pages.length - 1`, `nextPage()` adds exactly 1 to
`currentPage`, and whenever `0 < currentPage`, `prevPage()` subtracts exactly
1; in both cases one display request is made, for the new `currentPage`, and
the visible pages are exactly the page at that index. -/
theorem nextPage_prevPage_steps (s : State Num) :
    (pagesLength s - 1 ≤ s.currentPage → nextPage s = s) ∧
    (s.currentPage ≤ 0 → prevPage s = s) ∧
    (s.currentPage < pagesLength s - 1 →
      (nextPage s).currentPage = s.currentPage + 1 ∧
      (nextPage s).shown = s.shown ++ [s.currentPage + 1] ∧
      ∀ i : Nat, visible (nextPage s) i = true ↔ (i : Int) = s.currentPage + 1) ∧
    (0 < s.currentPage →
      (prevPage s).currentPage = s.currentPage - 1 ∧
      (prevPage s).shown = s.shown ++ [s.currentPage - 1] ∧
      ∀ i : Nat, visible (prevPage s) i = true ↔
        (i : Int) = s.currentPage - 1 ∧ i < s.active.length) := by
  refine ⟨?_, ?_, ?_, ?_⟩
  · intro h
    unfold nextPage
    rw [if_neg (by omega)]
  · intro h
    unfold prevPage
    rw [if_neg (by omega)]
  · intro h
    unfold nextPage
    rw [if_pos h]
    refine ⟨showPage_currentPage _ _, showPage_shown _ _, ?_⟩
    intro i
    rw [showPage_visible]
    unfold pagesLength at h
    dsimp only
    constructor
    · exact fun hi => hi.2
    · intro hi
      exact ⟨by omega, hi⟩
  · intro h
    unfold prevPage
    rw [if_pos h]
    refine ⟨showPage_currentPage _ _, showPage_shown _ _, ?_⟩
    intro i
    rw [showPage_visible]
    exact And.comm

/-- C1, an instance: on the loaded six page document `nextPage()` moves to
page 1 and `prevPage()` changes nothing. -/
theorem nextPage_prevPage_steps_witness :
    (nextPage (load sampleDoc : State Text)).currentPage
        = (load sampleDoc : State Text).currentPage + 1 ∧
      prevPage (load sampleDoc : State Text) = load sampleDoc :=
  ⟨((nextPage_prevPage_steps (load sampleDoc : State Text)).2.2.1 (by decide)).1,
    (nextPage_prevPage_steps (load sampleDoc : State Text)).2.1 (by decide)⟩

/-- C1, as first stated, fails on a page without sections: `currentPage` is 0,
which is not the last index -1, and `nextPage()` leaves it at 0. -/
theorem nextPage_empty_sequence_stays :
    (load emptyDoc : State Text).currentPage
        ≠ pagesLength (load emptyDoc : State Text) - 1 ∧
      nextPage (load emptyDoc : State Text) = load emptyDoc ∧
      (nextPage (load emptyDoc : State Text)).currentPage
        ≠ (load emptyDoc : State Text).currentPage + 1 := by
  decide

/-- C2. From the loaded state of a document with at least one page, after any
finite sequence of events, `0 <= currentPage <= pages.length - 1`. -/
theorem currentPage_in_range (env : Env Num) (d : Document) (h : 0 < d.active.length)
    (ops : List (Op Num)) :
    0 ≤ (run env (load d) ops).currentPage ∧
      (run env (load d) ops).currentPage ≤ pagesLength (run env (load d) ops) - 1 :=
  run_inv env ops (load d) (load_inv d h)

/-- C2, an instance: a session on the six page document that pushes against
both ends. -/
theorem currentPage_in_range_witness :
    0 ≤ (run sampleEnv (load sampleDoc)
          [Op.prevPage, Op.nextPage, Op.selectIssue (toUtf16 "pothole"), Op.showPage 9,
            Op.reportAnonymous, Op.nextPage, Op.nextPage, Op.nextPage, Op.nextPage]).currentPage ∧
      (run sampleEnv (load sampleDoc)
          [Op.prevPage, Op.nextPage, Op.selectIssue (toUtf16 "pothole"), Op.showPage 9,
            Op.reportAnonymous, Op.nextPage, Op.nextPage, Op.nextPage, Op.nextPage]).currentPage
        ≤ pagesLength (run sampleEnv (load sampleDoc)
          [Op.prevPage, Op.nextPage, Op.selectIssue (toUtf16 "pothole"), Op.showPage 9,
            Op.reportAnonymous, Op.nextPage, Op.nextPage, Op.nextPage, Op.nextPage]) - 1 :=
  currentPage_in_range sampleEnv sampleDoc (by decide) _

/-- C3. Over every finite sequence of events from the loaded state at most one
map and at most one marker are constructed.  With Leaflet loaded, a second
call of `initMap()` is nothing but `map.invalidateSize()`: it constructs no
map and no marker and leaves both handles as they were.  Once a marker is
held, no event constructs another: every placement moves the one held. -/
theorem map_and_marker_built_once (env : Env Num) (d : Document) (ops : List (Op Num)) :
    (run env (load d) ops).mapsBuilt ≤ 1 ∧
      (run env (load d) ops).markersBuilt ≤ 1 ∧
      (env.leaflet = true → ∀ s : State Num,
        initMap env (initMap env s) = invalidateSize (initMap env s) ∧
          handles (initMap env (initMap env s)) = handles (initMap env s) ∧
          (initMap env (initMap env s)).marker = (initMap env s).marker) ∧
      ((run env (load d) ops).marker.isSome = true → ∀ op : Op Num,
        handles (step env (run env (load d) ops) op) = handles (run env (load d) ops)) := by
  have hinv : MapInv (run env (load d) ops) := run_mapInv env ops (load d) (load_mapInv d)
  refine ⟨?_, ?_, ?_, ?_⟩
  · rcases hinv with h | h
    · have h3 : (run env (load d) ops).mapsBuilt = 0 := congrArg (fun t => t.2.2.1) h
      omega
    · have h3 : (run env (load d) ops).mapsBuilt = 1 := congrArg (fun t => t.2.2.1) h
      omega
  · rcases hinv with h | h
    · have h3 : (run env (load d) ops).markersBuilt = 0 := congrArg (fun t => t.2.2.2) h
      omega
    · have h3 : (run env (load d) ops).markersBuilt = 1 := congrArg (fun t => t.2.2.2) h
      omega
  · intro hl s
    refine ⟨initMap_twice env hl s, ?_, ?_⟩
    · rw [initMap_twice env hl s, invalidateSize_handles]
    · rw [initMap_twice env hl s, invalidateSize_marker]
  · intro hm op
    rcases step_handles env _ op hinv with he | ⟨hn, _⟩
    · exact he
    · have h1 : (run env (load d) ops).marker.map (fun m => m.id) = none :=
        congrArg (fun t => t.2.1) hn
      cases hs : (run env (load d) ops).marker with
      | none => simp [hs] at hm
      | some m => simp [hs] at h1

/-- C3, an instance: the location page is shown three times before any timer
runs, the three creation timers run, `initMap()` is called directly, the map
is clicked and an address of coordinates is resolved; one map and one marker
have been constructed, and a further click constructs nothing. -/
theorem map_and_marker_built_once_witness :
    (run sampleEnv (load sampleDoc)
        [Op.showPage 3, Op.showPage 3, Op.showPage 3, Op.fireTimer 2, Op.fireTimer 0,
          Op.fireTimer 0, Op.initMap, Op.mapClick (toUtf16 "1") (toUtf16 "2"), Op.typeAddress (toUtf16 "3, 4"),
          Op.findAddress]).mapsBuilt = 1 ∧
      handles (step sampleEnv (run sampleEnv (load sampleDoc)
        [Op.showPage 3, Op.showPage 3, Op.showPage 3, Op.fireTimer 2, Op.fireTimer 0,
          Op.fireTimer 0, Op.initMap, Op.mapClick (toUtf16 "1") (toUtf16 "2"), Op.typeAddress (toUtf16 "3, 4"),
          Op.findAddress]) (Op.mapClick (toUtf16 "5") (toUtf16 "6"))) = (some 0, some 0, 1, 1) :=
  ⟨by decide,
    ((map_and_marker_built_once sampleEnv sampleDoc
        [Op.showPage 3, Op.showPage 3, Op.showPage 3, Op.fireTimer 2, Op.fireTimer 0,
          Op.fireTimer 0, Op.initMap, Op.mapClick (toUtf16 "1") (toUtf16 "2"), Op.typeAddress (toUtf16 "3, 4"),
          Op.findAddress]).2.2.2 (by decide) (Op.mapClick (toUtf16 "5") (toUtf16 "6"))).trans (by decide)⟩

/-- C4, at the failing input: on the freshly loaded page with `10, 20` in the
address field, `findAddress()` returns with no map, no marker and
`mapInitialized` false; it has shown the location page and scheduled the
creation timer.  When that timer runs the map appears at the default centre
and zoom 13 with the default marker: the coordinates are lost. -/
theorem findAddress_before_map_created :
    (run sampleEnv (load sampleDoc) [Op.typeAddress (toUtf16 "10, 20"), Op.findAddress]).map = none ∧
      (run sampleEnv (load sampleDoc) [Op.typeAddress (toUtf16 "10, 20"), Op.findAddress]).marker = none ∧
      (run sampleEnv (load sampleDoc)
        [Op.typeAddress (toUtf16 "10, 20"), Op.findAddress]).mapInitialized = false ∧
      (run sampleEnv (load sampleDoc)
        [Op.typeAddress (toUtf16 "10, 20"), Op.findAddress]).timers = [Timer.create] ∧
      (run sampleEnv (load sampleDoc)
        [Op.typeAddress (toUtf16 "10, 20"), Op.findAddress]).shown = [0, 3] ∧
      (run sampleEnv (load sampleDoc)
        [Op.typeAddress (toUtf16 "10, 20"), Op.findAddress, Op.fireTimer 0]).map =
          some { id := 0, center := (toUtf16 "-41.2865", toUtf16 "174.7762"), zoom := 13, tileLayers := 1,
                 clickHandlers := 1, invalidations := 0 } ∧
      (run sampleEnv (load sampleDoc)
        [Op.typeAddress (toUtf16 "10, 20"), Op.findAddress, Op.fireTimer 0]).marker =
          some { id := 0, pos := (toUtf16 "-41.2865", toUtf16 "174.7762"),
                 popup := toUtf16 "Default Location",
                 popupOpen := true } := by
  decide

/-- C5 (as amended). When the trimmed address matches the coordinate pattern,
`findAddress()` calls `fetch` zero times, leaves no request open and shows no
alert.  When the trimmed address is not empty, does not match and holds no
surrogate without its partner, it calls `fetch` exactly once, with that
address, and shows no alert before the reply.  When it is not empty, does not
match and holds a surrogate without its partner, `encodeURIComponent` throws:
`fetch` is not called, the error is logged and the generic alert is shown. -/
theorem findAddress_requests (env : Env Num) (s : State Num) :
    ((∃ g1 g3, MatchesPair (jsTrim (s.addressInput.getD [])) g1 g3) →
      (findAddress env s).fetches = s.fetches ∧
        (findAddress env s).pending = s.pending ∧
        (findAddress env s).alerts = s.alerts) ∧
      (jsTrim (s.addressInput.getD []) ≠ [] →
        (¬ ∃ g1 g3, MatchesPair (jsTrim (s.addressInput.getD [])) g1 g3) →
        encodable (jsTrim (s.addressInput.getD [])) = true →
        (findAddress env s).fetches = s.fetches ++ [jsTrim (s.addressInput.getD [])] ∧
          (findAddress env s).pending = s.pending ++ [jsTrim (s.addressInput.getD [])] ∧
          (findAddress env s).alerts = s.alerts) ∧
      (jsTrim (s.addressInput.getD []) ≠ [] →
        (¬ ∃ g1 g3, MatchesPair (jsTrim (s.addressInput.getD [])) g1 g3) →
        encodable (jsTrim (s.addressInput.getD [])) = false →
        (findAddress env s).fetches = s.fetches ∧
          (findAddress env s).pending = s.pending ∧
          (findAddress env s).errors = s.errors ++ ["Geocoding error"] ∧
          (findAddress env s).alerts =
            s.alerts ++ ["Error finding address. See console for details."]) := by
  refine ⟨?_, ?_, ?_⟩
  · rintro ⟨g1, g3, hm⟩
    have hc := (coordMatch_iff _ g1 g3).mpr hm
    rw [findAddress_of_match env s g1 g3 hc]
    have ho := locate_outside s (env.parseFloat g1, env.parseFloat g3)
      (toUtf16 "Coordinates: " ++ env.numToString (env.parseFloat g1) ++ toUtf16 ", " ++
        env.numToString (env.parseFloat g3))
    exact ⟨congrArg (fun t => t.2.1) ho, congrArg (fun t => t.2.2) ho,
      congrArg (fun t => t.1) ho⟩
  · intro hne hno henc
    have hc : coordMatch (jsTrim (s.addressInput.getD [])) = none := by
      by_contra hc
      exact hno ((matches_iff_coordMatch _).mpr hc)
    rw [findAddress_of_no_match env s hne hc, if_pos henc]
    exact ⟨rfl, rfl, rfl⟩
  · intro hne hno henc
    have hc : coordMatch (jsTrim (s.addressInput.getD [])) = none := by
      by_contra hc
      exact hno ((matches_iff_coordMatch _).mpr hc)
    rw [findAddress_of_no_match env s hne hc, if_neg (by rw [henc]; decide)]
    exact ⟨rfl, rfl, rfl, rfl⟩

/-- C5, an instance: `-41.2865, 174.7762` sends no request, `Wellington`
sends one. -/
theorem findAddress_requests_witness :
    (findAddress sampleEnv (step sampleEnv (load sampleDoc)
        (Op.typeAddress (toUtf16 "-41.2865, 174.7762")))).fetches = [] ∧
      (findAddress sampleEnv (step sampleEnv (load sampleDoc)
        (Op.typeAddress (toUtf16 " Wellington ")))).fetches = [toUtf16 "Wellington"] :=
  ⟨((findAddress_requests sampleEnv (step sampleEnv (load sampleDoc)
        (Op.typeAddress (toUtf16 "-41.2865, 174.7762")))).1
        ⟨toUtf16 "-41.2865", toUtf16 "174.7762", (coordMatch_iff _ _ _).mp (by decide)⟩).1,
    ((findAddress_requests sampleEnv (step sampleEnv (load sampleDoc)
        (Op.typeAddress (toUtf16 " Wellington ")))).2.1
        (by decide)
        (fun h => (matches_iff_coordMatch _).mp h (by decide))
        (by decide)).1⟩

/-- C5, as first stated, fails on a text that is not empty, does not match the
pattern and holds a surrogate without its partner, here the one code unit
`0xD800`: `findAddress()` sends no request and shows the generic alert. -/
theorem findAddress_lone_surrogate_no_fetch :
    jsTrim ((step sampleEnv (load sampleDoc) (Op.typeAddress [0xD800])).addressInput.getD [])
        ≠ [] ∧
      (¬ ∃ g1 g3, MatchesPair (jsTrim ((step sampleEnv (load sampleDoc)
        (Op.typeAddress [0xD800])).addressInput.getD [])) g1 g3) ∧
      (findAddress sampleEnv
        (step sampleEnv (load sampleDoc) (Op.typeAddress [0xD800]))).fetches = [] ∧
      (findAddress sampleEnv
        (step sampleEnv (load sampleDoc) (Op.typeAddress [0xD800]))).alerts =
          ["Error finding address. See console for details."] :=
  ⟨by decide, fun h => (matches_iff_coordMatch _).mp h (by decide), by decide, by decide⟩

/-- C6. When the address field is missing, empty or holds white space only,
`findAddress()` shows one alert and changes nothing else: the state it
returns is the state it got with that one alert appended. -/
theorem findAddress_empty_only_alerts (env : Env Num) (s : State Num)
    (h : ∀ c ∈ s.addressInput.getD [], isSpace c = true) :
    findAddress env s =
      { s with alerts := s.alerts ++ ["Please enter an address or coordinates."] } := by
  have h0 : jsTrim (s.addressInput.getD []) = [] := (jsTrim_eq_nil_iff _).mpr h
  unfold findAddress
  dsimp only
  rw [if_pos h0]

/-- C6, an instance: a field holding blanks and a tab on the loaded page. -/
theorem findAddress_empty_only_alerts_witness :
    findAddress sampleEnv (step sampleEnv (load sampleDoc) (Op.typeAddress (toUtf16 "  \t "))) =
      { step sampleEnv (load sampleDoc) (Op.typeAddress (toUtf16 "  \t ")) with
        alerts := ["Please enter an address or coordinates."] } :=
  findAddress_empty_only_alerts sampleEnv
    (step sampleEnv (load sampleDoc) (Op.typeAddress (toUtf16 "  \t "))) (by decide)

/-- C7. `submitReport()` shows its alert exactly when the name or the email is
the empty string, a missing field counting as empty; when it does, the state
it returns is the state it got with that one alert appended. -/
theorem submitReport_alert_iff (env : Env Num) (s : State Num) :
    ((submitReport env s).alerts ≠ s.alerts ↔
        s.nameInput.getD [] = [] ∨ s.emailInput.getD [] = []) ∧
      (s.nameInput.getD [] = [] ∨ s.emailInput.getD [] = [] →
        submitReport env s = { s with alerts := s.alerts ++ ["Please fill name and email."] }) := by
  have hfail : s.nameInput.getD [] = [] ∨ s.emailInput.getD [] = [] →
      submitReport env s = { s with alerts := s.alerts ++ ["Please fill name and email."] } := by
    intro h
    unfold submitReport
    dsimp only
    rw [if_neg (by tauto)]
  refine ⟨⟨?_, ?_⟩, hfail⟩
  · intro hne
    by_contra hc
    push_neg at hc
    apply hne
    unfold submitReport
    dsimp only
    rw [if_pos hc]
    have ho := showPage_outside s 5
    split_ifs
    · exact congrArg (fun t => t.1) ho
    · exact congrArg (fun t => t.1) ho
  · intro h
    rw [hfail h]
    simp

/-- C7, an instance: an empty name with the email `a@b.com`. -/
theorem submitReport_alert_iff_witness :
    submitReport sampleEnv (step sampleEnv (load sampleDoc) (Op.typeEmail (toUtf16 "a@b.com"))) =
      { step sampleEnv (load sampleDoc) (Op.typeEmail (toUtf16 "a@b.com")) with
        alerts := ["Please fill name and email."] } :=
  (submitReport_alert_iff sampleEnv
    (step sampleEnv (load sampleDoc) (Op.typeEmail (toUtf16 "a@b.com")))).2 (Or.inl (by decide))

/-- C8. With a name and an email that are not empty, on six pages,
`submitReport()` leaves page 5 the one visible page and shows no alert.  With
`sharedReport` set, the reference container (when present) is displayed as
`block` and the reference text is the result of `generateReference()`, eight
fresh draws from the random source, eight characters of `chars`; without it
the container is displayed as `none`, the text is untouched and nothing is
drawn.  In particular after `shareDetails()` the container ends as `block`
with an eight character code. -/
theorem submitReport_confirms (env : Env Num) (s : State Num)
    (hn : s.nameInput.getD [] ≠ []) (he : s.emailInput.getD [] ≠ [])
    (h6 : s.active.length = 6)
    (hr : ∀ i, i < 8 → (env.random (s.randomCalls + i)).Valid) :
    (∀ i : Nat, visible (submitReport env s) i = true ↔ i = 5) ∧
      (submitReport env s).alerts = s.alerts ∧
      (submitReport env s).referenceContainer =
        s.referenceContainer.map (fun _ => if s.sharedReport then "block" else "none") ∧
      (∀ v, s.referenceContainer = some v →
        ((submitReport env s).referenceContainer = some "block" ↔ s.sharedReport = true) ∧
        ((submitReport env s).referenceContainer = some "none" ↔ s.sharedReport = false)) ∧
      (s.sharedReport = true →
        (submitReport env s).referenceNumber =
            s.referenceNumber.map (fun _ => (generateReference env s).1) ∧
          (submitReport env s).randomCalls = s.randomCalls + 8) ∧
      (s.sharedReport = false →
        (submitReport env s).referenceNumber = s.referenceNumber ∧
          (submitReport env s).randomCalls = s.randomCalls) ∧
      ((generateReference env s).1.length = 8 ∧
        ∀ c ∈ (generateReference env s).1.data, c ∈ chars.data) ∧
      ((∀ i : Nat, visible (submitReport env (shareDetails s)) i = true ↔ i = 5) ∧
        (submitReport env (shareDetails s)).referenceContainer =
          s.referenceContainer.map (fun _ => "block") ∧
        (submitReport env (shareDetails s)).referenceNumber =
          s.referenceNumber.map (fun _ => (generateReference env s).1)) := by
  have hgen : (generateReference env s).1.length = 8 ∧
      ∀ c ∈ (generateReference env s).1.data, c ∈ chars.data := by
    obtain ⟨cs, hlen, _, hmem, hloop⟩ := referenceLoop_spec env.random 8 s.randomCalls "" hr
    have hd : (generateReference env s).1.data = cs := by
      show (referenceLoop env.random 8 s.randomCalls "").data = cs
      rw [hloop]
      simp [String.data_append]
    constructor
    · show (generateReference env s).1.data.length = 8
      rw [hd, hlen]
    · rw [hd]
      exact hmem
  have hfill := submitReport_filled env s hn he
  have hfill2 := submitReport_filled env (shareDetails s) hn he
  have hvis : ∀ (t : State Num), t.active = (showPage s 5).active →
      ∀ i : Nat, visible t i = true ↔ i = 5 := by
    intro t ht i
    rw [← visible_showPage_five s h6 i]
    unfold visible
    rw [ht]
  have hact : (showPage (shareDetails s) 5).active = (showPage s 5).active := by
    rw [showPage_active, showPage_active]
    rfl
  have hout := congrArg (fun t => t.1) (showPage_outside s 5)
  cases hsh : s.sharedReport with
  | false =>
    rw [hsh] at hfill
    simp only [Bool.false_eq_true, if_false] at hfill
    refine ⟨hvis _ (by rw [hfill]), by rw [hfill]; exact hout, by rw [hfill]; simp, ?_,
      fun h => absurd h (by decide), ?_, hgen, hvis _ (by rw [hfill2]; exact hact), ?_, ?_⟩
    · intro v hv
      rw [hfill, hv]
      simp
    · intro _
      rw [hfill]
      exact ⟨(showPage_reference s 5).2, showPage_randomCalls s 5⟩
    · rw [hfill2]
      rfl
    · rw [hfill2]
      rfl
  | true =>
    rw [hsh] at hfill
    simp only [if_true] at hfill
    refine ⟨hvis _ (by rw [hfill]), by rw [hfill]; exact hout, by rw [hfill]; simp, ?_, ?_,
      fun h => absurd h (by decide), hgen, hvis _ (by rw [hfill2]; exact hact), ?_, ?_⟩
    · intro v hv
      rw [hfill, hv]
      simp
    · intro _
      rw [hfill]
      exact ⟨rfl, rfl⟩
    · rw [hfill2]
      rfl
    · rw [hfill2]
      rfl

/-- C8, an instance: `shareDetails()`, then the name `Jo` and the email
`jo@x.com`, then `submitReport()`. -/
theorem submitReport_confirms_witness :
    (∀ i : Nat, visible (submitReport sampleEnv (run sampleEnv (load sampleDoc)
        [Op.shareDetails, Op.typeName (toUtf16 "Jo"), Op.typeEmail (toUtf16 "jo@x.com")])) i = true ↔ i = 5) ∧
      (submitReport sampleEnv (run sampleEnv (load sampleDoc)
        [Op.shareDetails, Op.typeName (toUtf16 "Jo"), Op.typeEmail (toUtf16 "jo@x.com")])).referenceContainer
          = some "block" :=
  ⟨(submitReport_confirms sampleEnv (run sampleEnv (load sampleDoc)
        [Op.shareDetails, Op.typeName (toUtf16 "Jo"), Op.typeEmail (toUtf16 "jo@x.com")])
      (by decide) (by decide) (by decide) (fun _ _ => zero_draw_valid)).1,
    ((submitReport_confirms sampleEnv (run sampleEnv (load sampleDoc)
        [Op.shareDetails, Op.typeName (toUtf16 "Jo"), Op.typeEmail (toUtf16 "jo@x.com")])
      (by decide) (by decide) (by decide) (fun _ _ => zero_draw_valid)).2.2.1).trans
      (by decide)⟩

/-- C9. On six pages, whatever `sharedReport` and the display of the reference
container were, after `reportAnonymous()` the flag is false, page 5 is the one
visible page and the reference container is displayed as `none`. -/
theorem reportAnonymous_confirms (s : State Num) (h6 : s.active.length = 6) :
    (reportAnonymous s).sharedReport = false ∧
      (∀ i : Nat, visible (reportAnonymous s) i = true ↔ i = 5) ∧
      (reportAnonymous s).referenceContainer = s.referenceContainer.map (fun _ => "none") ∧
      (∀ v, s.referenceContainer = some v →
        (reportAnonymous s).referenceContainer = some "none") := by
  have hc : (reportAnonymous s).referenceContainer
      = s.referenceContainer.map (fun _ => "none") := by
    show Option.map _ (showPage { s with sharedReport := false } 5).referenceContainer = _
    rw [(showPage_reference _ 5).1]
  refine ⟨?_, ?_, hc, ?_⟩
  · exact showPage_sharedReport { s with sharedReport := false } 5
  · intro i
    exact visible_showPage_five { s with sharedReport := false } h6 i
  · intro v hv
    rw [hc, hv]
    rfl

/-- C9, an instance: the flag set and the container shown beforehand. -/
theorem reportAnonymous_confirms_witness :
    (reportAnonymous ({ (shareDetails (load sampleDoc)) with
        referenceContainer := some "block" } : State Text)).sharedReport = false ∧
      (reportAnonymous ({ (shareDetails (load sampleDoc)) with
        referenceContainer := some "block" } : State Text)).referenceContainer
          = some "none" :=
  ⟨(reportAnonymous_confirms ({ (shareDetails (load sampleDoc)) with
        referenceContainer := some "block" } : State Text) (by decide)).1,
    (reportAnonymous_confirms ({ (shareDetails (load sampleDoc)) with
        referenceContainer := some "block" } : State Text) (by decide)).2.2.2 "block"
      (by decide)⟩

/-- C10 (as amended). `generateReference()` is total.  With the eight draws
doubles in `[0, 1)` its result has length 8, every character of it is one of
the 36 of `chars`, and its i-th character is the one of `chars` at the index
`Math.floor(r_i * 36)` computed in double arithmetic, which lies in 0..35 and
is the floor of the exact product or one more.
Every string of eight characters of `chars` is its result for some draws that
are doubles in `[0, 1)`.  It changes nothing but the position in the random
source, and its result depends on nothing else of the state. -/
theorem generateReference_code (env : Env Num) (s : State Num) :
    ((∀ i, i < 8 → (env.random (s.randomCalls + i)).Valid) →
      (generateReference env s).1.length = 8 ∧
        (∀ c ∈ (generateReference env s).1.data, c ∈ chars.data) ∧
        (∀ i, i < 8 → (generateReference env s).1.data[i]? =
          chars.data[(floorTimes (env.random (s.randomCalls + i)) 36).toNat]?) ∧
        (∀ i, i < 8 → 0 ≤ floorTimes (env.random (s.randomCalls + i)) 36 ∧
          floorTimes (env.random (s.randomCalls + i)) 36 < 36 ∧
          Int.floor ((env.random (s.randomCalls + i)).value * 36)
            ≤ floorTimes (env.random (s.randomCalls + i)) 36 ∧
          floorTimes (env.random (s.randomCalls + i)) 36
            ≤ Int.floor ((env.random (s.randomCalls + i)).value * 36) + 1)) ∧
      (∀ w : List Char, w.length = 8 → (∀ c ∈ w, c ∈ chars.data) →
        ∃ random : Nat → Draw, (∀ i, (random i).Valid) ∧
          (generateReference { env with random := random } s).1 = String.mk w) ∧
      (generateReference env s).2 = { s with randomCalls := s.randomCalls + 8 } ∧
      (∀ t : State Num, t.randomCalls = s.randomCalls →
        (generateReference env t).1 = (generateReference env s).1) := by
  refine ⟨?_, ?_, rfl, ?_⟩
  · intro hr
    obtain ⟨cs, hlen, hget, hmem, hloop⟩ := referenceLoop_spec env.random 8 s.randomCalls "" hr
    have hd : (generateReference env s).1.data = cs := by
      show (referenceLoop env.random 8 s.randomCalls "").data = cs
      rw [hloop]
      simp [String.data_append]
    refine ⟨?_, ?_, ?_, ?_⟩
    · show (generateReference env s).1.data.length = 8
      rw [hd, hlen]
    · rw [hd]
      exact hmem
    · intro i hi
      rw [hd, hget i hi, chars_length]
    · intro i hi
      have h1 := floorTimes_lt _ (hr i hi)
      rw [chars_length] at h1
      have h2 := floorTimes_near _ (hr i hi)
      exact ⟨Int.ofNat_nonneg _, h1, h2.1, h2.2⟩
  · intro w hw hall
    have hin : ∀ j : Nat, (w[j]?).getD 'A' ∈ chars.data := by
      intro j
      cases hj : w[j]? with
      | none => exact mem_chars_A
      | some c => exact hall c (List.getElem?_mem hj)
    refine ⟨fun j => drawFor ((w[j - s.randomCalls]?).getD 'A'), ?_, ?_⟩
    · intro i
      exact drawFor_valid _ (hin _)
    · obtain ⟨cs, hlen, hget, _, hloop⟩ :=
        referenceLoop_spec (fun j => drawFor ((w[j - s.randomCalls]?).getD 'A')) 8
          s.randomCalls "" (fun i _ => drawFor_valid _ (hin _))
      show referenceLoop (fun j => drawFor ((w[j - s.randomCalls]?).getD 'A')) 8
          s.randomCalls "" = String.mk w
      rw [hloop]
      apply String.ext
      rw [String.data_append]
      show [] ++ cs = w
      rw [List.nil_append]
      apply List.ext_getElem?
      intro i
      by_cases hi : i < 8
      · rw [hget i hi, Nat.add_sub_cancel_left, drawFor_index _ (hin i)]
        have hiw : i < w.length := by omega
        rw [List.getElem?_eq_getElem hiw]
        rfl
      · rw [List.getElem?_eq_none (by omega), List.getElem?_eq_none (by omega)]
  · intro t ht
    show referenceLoop env.random 8 t.randomCalls "" = referenceLoop env.random 8 s.randomCalls ""
    rw [ht]

/-- C10, an instance: with every draw `0` the code has length 8, and the
string `WELL1NGT` is the code of some draws. -/
theorem generateReference_code_witness :
    (generateReference sampleEnv (load sampleDoc)).1.length = 8 ∧
      ∃ random : Nat → Draw, (∀ i, (random i).Valid) ∧
        (generateReference { sampleEnv with random := random } (load sampleDoc)).1
          = String.mk ['W', 'E', 'L', 'L', '1', 'N', 'G', 'T'] :=
  ⟨((generateReference_code sampleEnv (load sampleDoc)).1
      (fun _ _ => zero_draw_valid)).1,
    (generateReference_code sampleEnv (load sampleDoc)).2.1
      ['W', 'E', 'L', 'L', '1', 'N', 'G', 'T'] (by decide) (by decide)⟩

/-- C10, as first stated, fails at the draw `4253399648072135 / 2 ^ 52`, a
double in `[0, 1)`: the exact product with 36 is below 34, so the character
of `chars` at the floor of the product is `7`, while the double product is 34
and `generateReference()` returns `8`. -/
theorem generateReference_tie_draw :
    tieDraw.Valid ∧ 0 ≤ tieDraw.value ∧ tieDraw.value < 1 ∧
      chars.data[(Int.floor (tieDraw.value * 36)).toNat]? = some '7' ∧
      (generateReference { sampleEnv with random := fun _ => tieDraw }
        (load sampleDoc)).1 = "88888888" := by
  have hf : Int.floor (tieDraw.value * 36) = 33 := by
    rw [Int.floor_eq_iff]
    unfold Draw.value tieDraw
    norm_num
  refine ⟨⟨by decide, by decide, by decide⟩, ?_, ?_, ?_, by decide⟩
  · unfold Draw.value tieDraw
    positivity
  · unfold Draw.value tieDraw
    norm_num
  · rw [hf]
    decide

end Mission4
